import Mathlib

/-!
Shallow embedding of the TUI-Mail client (src/tui_mail.py) in Lean 4, together
with theorems settling the frozen claims about it.

Modelling conventions:
- Python strings are modelled as Lean strings over their character lists; the
  string predicates of the source (strip, lower, upper, substring search) are
  translated for the ASCII range, which is the range the source exercises.
- The external mail binary is a parameter: a function from an argument vector
  (and, for the stdin-based variant, an input string) to a process result
  (return code, stdout, stderr).  Calling it twice with the same arguments
  yields the same result, which models one observable execution per call site.
- Bounded recursion in the source (the quiet-flag re-run, the ANSI scanner) is
  translated with an explicit fuel argument that provably suffices, so that
  every definition is structurally recursive and evaluates by kernel reduction.
-/

/-! ### Python string primitives (ASCII model) -/

/-- Whitespace characters recognised by Python str.strip and the regex class. -/
def isPySpace (c : Char) : Bool :=
  c = ' ' || c = '\t' || c = '\n' || c = '\r' || c = '\x0b' || c = '\x0c'

/-- Removal of trailing whitespace, the model of Python str.rstrip. -/
def rstripL : List Char → List Char
  | [] => []
  | c :: rest =>
    match rstripL rest with
    | [] => if isPySpace c then [] else [c]
    | r :: rs => c :: r :: rs

/-- Removal of leading and trailing whitespace, the model of Python str.strip. -/
def stripL (cs : List Char) : List Char :=
  rstripL (cs.dropWhile isPySpace)

def pyRstrip (s : String) : String := ⟨rstripL s.data⟩

def pyStrip (s : String) : String := ⟨stripL s.data⟩

/-- ASCII lower-casing of one character, the model of Python str.lower. -/
def asciiLower (c : Char) : Char :=
  if 65 ≤ c.toNat ∧ c.toNat ≤ 90 then Char.ofNat (c.toNat + 32) else c

/-- ASCII upper-casing of one character, the model of Python str.upper. -/
def asciiUpper (c : Char) : Char :=
  if 97 ≤ c.toNat ∧ c.toNat ≤ 122 then Char.ofNat (c.toNat - 32) else c

def pyLower (s : String) : String := ⟨s.data.map asciiLower⟩

def pyUpper (s : String) : String := ⟨s.data.map asciiUpper⟩

/-- Test that one character list starts with another. -/
def isPrefixL : List Char → List Char → Bool
  | [], _ => true
  | _ :: _, [] => false
  | a :: as, b :: bs => a = b && isPrefixL as bs

/-- Substring search: the model of the Python operator (needle in haystack). -/
def containsSubL (needle : List Char) : List Char → Bool
  | [] => isPrefixL needle []
  | c :: rest => isPrefixL needle (c :: rest) || containsSubL needle rest

def pyIn (needle haystack : String) : Bool :=
  containsSubL needle.data haystack.data

def pyStartsWith (s pre : String) : Bool :=
  isPrefixL pre.data s.data

/-- Joining an argument vector with single spaces, as str.join does. -/
def joinSpace : List String → String
  | [] => ""
  | [x] => x
  | x :: y :: rest => x ++ " " ++ joinSpace (y :: rest)

/-- Split on newline characters; every newline separates two (possibly empty)
chunks. -/
def splitNlL : List Char → List (List Char)
  | [] => [[]]
  | c :: rest =>
    if c = '\n' then [] :: splitNlL rest
    else
      match splitNlL rest with
      | [] => [[c]]
      | l :: ls => (c :: l) :: ls

/-- Model of Python str.splitlines for newline-separated text: a trailing
newline does not produce a final empty line, and the empty string has no
lines. -/
def pySplitlines (s : String) : List String :=
  let parts := (splitNlL s.data).map (fun l => (⟨l⟩ : String))
  if parts.getLast? = some "" then parts.dropLast else parts

/-- Numeric value of a run of decimal digits, as Python int() computes it. -/
def digitsToNat (ds : List Char) : Nat :=
  ds.foldl (fun acc c => acc * 10 + (c.toNat - 48)) 0

/-! ### Data model -/

/-- One row of the envelope list: the id parsed from the line plus the full
display line (HimalayaClient / EnvelopeRow in the source). -/
structure EnvelopeRow where
  id : Nat
  line : String
deriving DecidableEq

/-- One folder entry (FolderRow in the source). -/
structure FolderRow where
  name : String
  desc : String := ""
deriving DecidableEq

/-- Captured outcome of one subprocess execution. -/
structure ProcResult where
  returncode : Int
  stdout : String
  stderr : String

/-! ### CommandAdapter: output sanitisation and result classification -/

/-- ANSI escape scanner, fuelled by the input length (which always suffices):
drops every complete sequence ESC [ then parameter bytes 0x30-0x3F, then
intermediate bytes 0x20-0x2F, then one final byte 0x40-0x7E, exactly as the
regex of the source matches, and keeps everything else. -/
def stripAnsiFuel : Nat → List Char → List Char
  | 0, _ => []
  | _ + 1, [] => []
  | fuel + 1, c :: rest =>
    if c = '\x1b' then
      match rest with
      | '[' :: r2 =>
        let r3 := r2.dropWhile (fun d => 0x30 ≤ d.toNat && d.toNat ≤ 0x3f)
        let r4 := r3.dropWhile (fun d => 0x20 ≤ d.toNat && d.toNat ≤ 0x2f)
        match r4 with
        | f :: r5 =>
          if 0x40 ≤ f.toNat && f.toNat ≤ 0x7e then stripAnsiFuel fuel r5
          else c :: stripAnsiFuel fuel rest
        | [] => c :: stripAnsiFuel fuel rest
      | _ => c :: stripAnsiFuel fuel rest
    else c :: stripAnsiFuel fuel rest

def stripAnsi (s : String) : String :=
  ⟨stripAnsiFuel s.data.length s.data⟩

/-- Model of HimalayaClient._sanitize_output: remove ANSI escapes, then strip
surrounding whitespace. -/
def sanitize_output (text : String) : String :=
  pyStrip (stripAnsi text)

/-- Model of HimalayaClient._is_soft_success. -/
def is_soft_success (stdout stderr : String) : Bool :=
  pyIn "successfully" (pyLower (stdout ++ "\n" ++ stderr))

/-- Model of HimalayaClient._is_quiet_unsupported. -/
def is_quiet_unsupported (stdout stderr : String) : Bool :=
  pyIn "unexpected argument \x27--quiet\x27" (pyLower (stdout ++ "\n" ++ stderr))

/-- Model of HimalayaClient._strip_quiet_arg: remove the first occurrence of
the quiet flag, if present. -/
def strip_quiet_arg (cmd : List String) : List String :=
  if "--quiet" ∈ cmd then cmd.erase "--quiet" else cmd

/-- Model of HimalayaClient._is_send_copy_failure. -/
def is_send_copy_failure (cmd : List String) (stdout stderr : String) : Bool :=
  let joinedCmd := pyLower (joinSpace cmd)
  if !(pyIn "message send" joinedCmd) then false
  else
    let combined := pyLower (stdout ++ "\n" ++ stderr)
    let missingFolderCase :=
      pyIn "cannot add imap message" combined
        && pyIn "cannot resolve imap task" combined
        && (pyIn "folder doesn\x27t exist" combined
            || pyIn "folder does not exist" combined)
    let legacyStreamCase :=
      pyIn "cannot add imap message" combined
        && (pyIn "stream error" combined
            || pyIn "unexpected tag in command completion result" combined)
    missingFolderCase || legacyStreamCase

/-- Model of HimalayaClient._is_missing_trash_error. -/
def is_missing_trash_error (text : String) : Bool :=
  let lowered := pyLower text
  pyIn "no folder trash" lowered
    || (pyIn "trash" lowered && pyIn "cannot move imap message" lowered)

/-- Model of HimalayaClient._truncate with its default display limit of 400. -/
def truncateText (text : String) (limit : Nat := 400) : String :=
  if text.data.length ≤ limit then text
  else ⟨text.data.take (limit - 3)⟩ ++ "..."

/-- Error message used by both runners when a command fails hard: stderr,
falling back to stdout, stripped; a generic message when both are empty. -/
def runFailMsg (cmd : List String) (cleanStdout cleanStderr : String) : String :=
  let err := pyStrip (if cleanStderr = "" then cleanStdout else cleanStderr)
  if err = "" then "Command failed: " ++ joinSpace cmd else err

/-- Classification of a finished _run subprocess after the quiet-flag re-run
check: soft success, hard failure, or plain success. -/
def classifyRun (cmd : List String) (cleanStdout cleanStderr : String)
    (returncode : Int) : Except String String :=
  if returncode ≠ 0 ∧ is_soft_success cleanStdout cleanStderr then
    .ok cleanStdout
  else if returncode ≠ 0 then
    .error (runFailMsg cmd cleanStdout cleanStderr)
  else
    .ok cleanStdout

/-- Fuelled model of HimalayaClient._run.  The only recursion in the source is
the single re-run with the quiet flag stripped; the fuel is the number of
occurrences of the flag in the vector, which bounds that recursion, so the
fuel-exhausted case is never reached from the top-level entry point. -/
def runFuel (exec : List String → ProcResult) :
    Nat → List String → Except String String
  | 0, cmd =>
    let proc := exec cmd
    classifyRun cmd (sanitize_output proc.stdout) (sanitize_output proc.stderr)
      proc.returncode
  | fuel + 1, cmd =>
    let proc := exec cmd
    let cleanStdout := sanitize_output proc.stdout
    let cleanStderr := sanitize_output proc.stderr
    if proc.returncode ≠ 0 ∧ cmd.contains "--quiet"
        ∧ is_quiet_unsupported cleanStdout cleanStderr then
      runFuel exec fuel (strip_quiet_arg cmd)
    else
      classifyRun cmd cleanStdout cleanStderr proc.returncode

/-- Model of HimalayaClient._run. -/
def run (exec : List String → ProcResult) (cmd : List String) :
    Except String String :=
  runFuel exec (cmd.count "--quiet") cmd

/-- Warning string returned when a send reports a save-copy failure. -/
def sendCopyWarning : String :=
  "Email sent, but saving a copy via IMAP failed. "
    ++ "Your server may be legacy/incompatible with this append flow. "
    ++ "Try disabling message.send.save-copy in config."

/-- Classification of a finished _run_with_stdin subprocess after the
quiet-flag re-run check: soft success, send-copy reclassification, hard
failure, or plain success. -/
def classifyRunWithStdin (cmd : List String) (cleanStdout cleanStderr : String)
    (returncode : Int) : Except String String :=
  if returncode ≠ 0 ∧ is_soft_success cleanStdout cleanStderr then
    .ok cleanStdout
  else if returncode ≠ 0 ∧ is_send_copy_failure cmd cleanStdout cleanStderr then
    .ok sendCopyWarning
  else if returncode ≠ 0 then
    .error (runFailMsg cmd cleanStdout cleanStderr)
  else
    .ok cleanStdout

/-- Fuelled model of HimalayaClient._run_with_stdin, mirroring runFuel. -/
def runWithStdinFuel (execIn : List String → String → ProcResult) :
    Nat → List String → String → Except String String
  | 0, cmd, rawInput =>
    let proc := execIn cmd rawInput
    classifyRunWithStdin cmd (sanitize_output proc.stdout)
      (sanitize_output proc.stderr) proc.returncode
  | fuel + 1, cmd, rawInput =>
    let proc := execIn cmd rawInput
    let cleanStdout := sanitize_output proc.stdout
    let cleanStderr := sanitize_output proc.stderr
    if proc.returncode ≠ 0 ∧ cmd.contains "--quiet"
        ∧ is_quiet_unsupported cleanStdout cleanStderr then
      runWithStdinFuel execIn fuel (strip_quiet_arg cmd) rawInput
    else
      classifyRunWithStdin cmd cleanStdout cleanStderr proc.returncode

/-- Model of HimalayaClient._run_with_stdin. -/
def run_with_stdin (execIn : List String → String → ProcResult)
    (cmd : List String) (rawInput : String) : Except String String :=
  runWithStdinFuel execIn (cmd.count "--quiet") cmd rawInput

/-! ### CommandAdapter: the delete operation with its trash fallback -/

/-- Client configuration fields used when building command vectors. -/
structure ClientCfg where
  binary : String
  account : String
  folder : String

/-- Account arguments appended only when an account override is set. -/
def accountArgs (c : ClientCfg) : List String :=
  if c.account ≠ "" then ["--account", c.account] else []

/-- Argument vector of the initial delete command. -/
def deleteCmd (c : ClientCfg) (envelopeId : Nat) : List String :=
  [c.binary, "--quiet", "message", "delete", "--folder", c.folder,
    toString envelopeId] ++ accountArgs c

/-- Argument vector of the deleted-flag fallback command. -/
def deleteFallbackCmd (c : ClientCfg) (envelopeId : Nat) : List String :=
  [c.binary, "--quiet", "flag", "add", "--folder", c.folder,
    toString envelopeId, "deleted"] ++ accountArgs c

/-- Composed error raised when the trash fallback also fails. -/
def composedDeleteError (fallbackErr : String) : String :=
  "Failed to delete email: Trash folder is missing and deleted-flag "
    ++ "fallback also failed. Error: " ++ fallbackErr

/-- Model of HimalayaClient.delete_message: run the delete; when it fails with
a missing-trash error, retry once as a flag-add of the deleted flag; when that
fails too, raise the composed error; re-raise any other failure unchanged. -/
def delete_message (exec : List String → ProcResult) (c : ClientCfg)
    (envelopeId : Nat) : Except String String :=
  match run exec (deleteCmd c envelopeId) with
  | .ok out => .ok out
  | .error rawErr =>
    if !is_missing_trash_error rawErr then .error rawErr
    else
      match run exec (deleteFallbackCmd c envelopeId) with
      | .ok out => .ok out
      | .error fallbackErr => .error (composedDeleteError fallbackErr)

/-! ### ResponseParser: envelope rows -/

/-- Bar delimiters accepted by the second envelope pattern: the ASCII vertical
bar or the box-drawing vertical of U+2502. -/
def isBarChar (c : Char) : Bool := c = '|' || c = '│'

/-- Deterministic matcher for the first envelope pattern of the source,
leading whitespace then a digit run then at least one whitespace character;
returns the numeric value of the digit run.  The character classes of the
regex are pairwise disjoint, so greedy matching is equivalent to this scan. -/
def matchLeadingInt (cs : List Char) : Option Nat :=
  let rest := cs.dropWhile isPySpace
  let digits := rest.takeWhile Char.isDigit
  if digits.isEmpty then none
  else
    match rest.drop digits.length with
    | c :: _ => if isPySpace c then some (digitsToNat digits) else none
    | [] => none

/-- Deterministic matcher for the second envelope pattern of the source,
leading whitespace, a bar, optional whitespace, a digit run, optional
whitespace, and a closing bar; returns the numeric value of the digit run. -/
def matchBarInt (cs : List Char) : Option Nat :=
  match cs.dropWhile isPySpace with
  | [] => none
  | b :: r2 =>
    if isBarChar b then
      let r3 := r2.dropWhile isPySpace
      let digits := r3.takeWhile Char.isDigit
      if digits.isEmpty then none
      else
        match (r3.drop digits.length).dropWhile isPySpace with
        | c :: _ => if isBarChar c then some (digitsToNat digits) else none
        | [] => none
    else none

/-- First matching pattern wins, in the order the source lists them. -/
def findEnvelopeId (clean : String) : Option Nat :=
  match matchLeadingInt clean.data with
  | some n => some n
  | none => matchBarInt clean.data

/-- Loop body of HimalayaClient._parse_envelope_rows over the split lines. -/
def parseEnvelopeLoop : List String → List EnvelopeRow
  | [] => []
  | line :: rest =>
    let clean := pyRstrip line
    if clean = "" then parseEnvelopeLoop rest
    else
      match findEnvelopeId clean with
      | none => parseEnvelopeLoop rest
      | some n => ⟨n, clean⟩ :: parseEnvelopeLoop rest

/-- Model of HimalayaClient._parse_envelope_rows. -/
def parse_envelope_rows (raw : String) : List EnvelopeRow :=
  parseEnvelopeLoop (pySplitlines raw)

/-- Modelled from the claim text, for comparison with the implementation: a
line contributes a row exactly when its right-trimmed form is non-empty and
matches one of the two recognised shapes, the row id being the matched
integer and the row line the right-trimmed input kept verbatim. -/
def specEnvelopeLine (line : String) : Option EnvelopeRow :=
  let clean := pyRstrip line
  if clean = "" then none
  else (findEnvelopeId clean).map (fun n => ⟨n, clean⟩)

/-! ### ResponseParser: folder normalization -/

/-- Case-insensitive key under which a folder row is de-duplicated. -/
def folderKeyOf (r : FolderRow) : String := pyLower (pyStrip r.name)

/-- De-duplication loop of HimalayaClient._normalize_folders: keep the first
occurrence of every non-empty case-insensitive name, with trimmed fields. -/
def normalizeUnique (seen : List String) : List FolderRow → List FolderRow
  | [] => []
  | r :: rest =>
    let key := folderKeyOf r
    if key = "" ∨ key ∈ seen then normalizeUnique seen rest
    else ⟨pyStrip r.name, pyStrip r.desc⟩ :: normalizeUnique (key :: seen) rest

/-- Primary sort rank of the source sort key: the INBOX entry first. -/
def inboxRank (r : FolderRow) : Nat :=
  if pyUpper r.name = "INBOX" then 0 else 1

/-- Lexicographic comparison of character lists by code point, the order
Python uses for strings. -/
def charListLe : List Char → List Char → Bool
  | [], _ => true
  | _ :: _, [] => false
  | a :: as, b :: bs =>
    if a.toNat < b.toNat then true
    else if b.toNat < a.toNat then false
    else charListLe as bs

/-- Comparison on the source sort key (inboxRank, lower-cased name). -/
def rowLe (a b : FolderRow) : Bool :=
  decide (inboxRank a < inboxRank b)
    || (decide (inboxRank a = inboxRank b)
        && charListLe (pyLower a.name).data (pyLower b.name).data)

/-- Stable insertion of one element into a list sorted by a boolean order. -/
def insertSorted (le : α → α → Bool) (x : α) : List α → List α
  | [] => [x]
  | y :: ys => if le x y then x :: y :: ys else y :: insertSorted le x ys

/-- Stable insertion sort by a boolean order, the model of list.sort with the
key of the source. -/
def sortByB (le : α → α → Bool) : List α → List α
  | [] => []
  | x :: xs => insertSorted le x (sortByB le xs)

/-- Model of HimalayaClient._normalize_folders: de-duplicate, then either
synthesize an INBOX entry at the front or sort with INBOX first and the rest
alphabetically by lower-cased name. -/
def normalize_folders (rows : List FolderRow) : List FolderRow :=
  let unique := normalizeUnique [] rows
  let hasInbox := unique.any (fun r => pyUpper r.name == "INBOX")
  if !hasInbox then ⟨"INBOX", "Inbox"⟩ :: unique
  else sortByB rowLe unique

/-- Adjacent sortedness by a boolean order. -/
def sortedByB (le : α → α → Bool) : List α → Bool
  | [] => true
  | [_] => true
  | a :: b :: rest => le a b && sortedByB le (b :: rest)

/-- Case-insensitive alphabetical sortedness of folder names, the order the
claim asserts for the entries after INBOX. -/
def namesSortedCI (rows : List FolderRow) : Bool :=
  sortedByB (fun a b => charListLe (pyLower a.name).data (pyLower b.name).data)
    rows

/-- Modelled from the claim text, for comparison with the de-duplication of
the source: keep the trimmed first occurrence of each non-empty
case-insensitive name, filtering all later occurrences of the same key out. -/
def dedupFoldersSpec : List FolderRow → List FolderRow
  | [] => []
  | r :: rest =>
    let key := folderKeyOf r
    if key = "" then dedupFoldersSpec rest
    else
      ⟨pyStrip r.name, pyStrip r.desc⟩
        :: dedupFoldersSpec (rest.filter (fun x => folderKeyOf x ≠ key))
termination_by l => l.length
decreasing_by
  all_goals simp only [List.length_cons]
  · exact Nat.lt_succ_of_le (Nat.le_refl _)
  · exact Nat.lt_succ_of_le (List.length_filter_le _ _)

/-! ### ConfigLookup: account enumeration -/

/-- Parsed shape of one account entry in a config file: whether the value is a
table, and whether its default flag is set to true. -/
structure AccountCfg where
  isDict : Bool
  defaultFlag : Bool

/-- Accumulator of the account scan: the kept names, the set of seen
case-insensitive keys, and the first default account found. -/
structure AccScan where
  accounts : List String
  seen : List String
  defaultAccount : String

/-- Case-insensitive key of a raw account name. -/
def accountKeyOf (raw : String) : String := pyLower (pyStrip raw)

/-- Inner loop of list_accounts_from_config over the entries of one parsed
accounts table. -/
def scanEntries (st : AccScan) : List (String × AccountCfg) → AccScan
  | [] => st
  | (rawName, cfg) :: rest =>
    let name := pyStrip rawName
    if name = "" then scanEntries st rest
    else
      let key := pyLower name
      if key ∈ st.seen then scanEntries st rest
      else
        let newDefault :=
          if st.defaultAccount = "" ∧ cfg.isDict ∧ cfg.defaultFlag then name
          else st.defaultAccount
        scanEntries ⟨st.accounts ++ [name], key :: st.seen, newDefault⟩ rest

/-- Model of list_accounts_from_config.  File discovery, reading and TOML
parsing are external collaborators; the input is the sequence of successfully
parsed accounts tables of the candidate files, in candidate order, exactly the
tables the loop of the source iterates over. -/
def list_accounts_from_config (files : List (List (String × AccountCfg))) :
    List String × String :=
  let final := files.foldl scanEntries ⟨[], [], ""⟩
  (final.accounts, final.defaultAccount)

/-- Modelled from the claim text, for comparison with the account scan of the
source: keep the trimmed first occurrence of each non-empty case-insensitive
name, filtering all later occurrences of the same key out. -/
def dedupFirst : List String → List String
  | [] => []
  | n :: rest =>
    let s := pyStrip n
    if s = "" then dedupFirst rest
    else s :: dedupFirst (rest.filter (fun m => accountKeyOf m ≠ pyLower s))
termination_by l => l.length
decreasing_by
  all_goals simp only [List.length_cons]
  · exact Nat.lt_succ_of_le (Nat.le_refl _)
  · exact Nat.lt_succ_of_le (List.length_filter_le _ _)

/-! ### UIStateMachine: page loading and the account switch -/

/-- View state fields touched by loading a page and switching accounts.  The
account, folder and page-size fields live on the client object in the source;
they are folded into the one state record here, since the client is owned by
the single app instance. -/
structure AppState where
  account : String
  folder : String
  pageSize : Nat
  page : Nat
  sender : String
  rows : List EnvelopeRow
  rawPageText : String
  cursor : Nat
  listScroll : Nat
  mode : String
  status : String
  currentMessageId : Option Nat
  messageLines : List String
  messageScroll : Nat
  messageTitle : String
deriving DecidableEq

/-- Behaviour of client.list_envelopes as the state machine observes it:
given account, folder, page size and page, either rows plus raw text or an
error message.  Its internals (command building, _run, row parsing) are
modelled separately by run and parse_envelope_rows. -/
def ListEnvelopes : Type :=
  String → String → Nat → Nat → Except String (List EnvelopeRow × String)

/-- Model of TuiMailApp._load_page, returning the new state and the success
flag.  The loading message is written to the status first (the render side of
_show_loading has no state effect beyond that); on failure the page is
decremented when it is above one; on success the rows are replaced and the
cursor adjusted. -/
def load_page (listEnv : ListEnvelopes) (resetCursor : Bool)
    (loadingMsg : String) (st : AppState) : AppState × Bool :=
  let st := { st with status := loadingMsg }
  match listEnv st.account st.folder st.pageSize st.page with
  | .error err =>
    let st := { st with
      status := "Error loading page " ++ toString st.page ++ ": " ++ err }
    let st := if st.page > 1 then { st with page := st.page - 1 } else st
    (st, false)
  | .ok (rows, raw) =>
    let st := { st with rows := rows, rawPageText := raw }
    let st :=
      if resetCursor then { st with cursor := 0, listScroll := 0 }
      else if st.cursor ≥ rows.length then
        { st with cursor := rows.length - 1 }
      else st
    let st :=
      if rows.isEmpty then
        { st with status := "No messages on page " ++ toString st.page ++ "." }
      else
        { st with status :=
            "Page " ++ toString st.page ++ " loaded ("
              ++ toString rows.length ++ " messages, page-size="
              ++ toString st.pageSize ++ ")." }
    (st, true)

/-- Success status line of the account switch. -/
def switchOkStatus (target defaultAccount senderNote : String) : String :=
  if target ≠ "" then
    "Account changed to " ++ target ++ ". Folder reset to INBOX. Sender "
      ++ senderNote ++ "."
  else if defaultAccount ≠ "" then
    "Account changed to default (" ++ defaultAccount
      ++ "). Folder reset to INBOX. Sender " ++ senderNote ++ "."
  else
    "Account changed to default. Folder reset to INBOX. Sender "
      ++ senderNote ++ "."

/-- Model of TuiMailApp._switch_account from the point where the modal dialog
has confirmed a target (the empty string selects the default account).  The
config lookup resolve gives the auto sender for the target, exactly the first
component resolve_default_sender_from_config returns; defaultAccount is the
default account name the earlier list_accounts_from_config call produced. -/
def switch_account (listEnv : ListEnvelopes) (resolve : String → String)
    (target defaultAccount : String) (st : AppState) : AppState :=
  let oldAccount := st.account
  let oldFolder := st.folder
  let oldPage := st.page
  let oldSender := st.sender
  let st := { st with
    account := target, folder := "INBOX", page := 1, mode := "list",
    currentMessageId := none, messageLines := [], messageScroll := 0,
    messageTitle := "" }
  let autoSender := resolve target
  let st := if autoSender ≠ "" then { st with sender := autoSender } else st
  let selectedLabel := if target ≠ "" then target else "(default)"
  let loaded := load_page listEnv true
    ("Switching account to " ++ selectedLabel ++ "...") st
  if loaded.2 then
    let senderNote := if autoSender ≠ "" then "auto-updated" else "unchanged"
    { loaded.1 with status := switchOkStatus target defaultAccount senderNote }
  else
    let st := { loaded.1 with
      account := oldAccount, folder := oldFolder, page := oldPage,
      sender := oldSender, mode := "list", currentMessageId := none,
      messageLines := [], messageScroll := 0, messageTitle := "" }
    let restored := load_page listEnv true "Restoring previous account..." st
    { restored.1 with status :=
        "Could not switch to account \x27" ++ selectedLabel
          ++ "\x27. Previous account restored." }

/-! ### ComposeEngine: the reply subject -/

/-- Model of the subject computation of TuiMailApp._open_reply_compose_page:
the parsed subject header is stripped, gets a Re: marker with a space unless
one is already there case-insensitively, and becomes the bare marker when
empty. -/
def replySubject (subjectHeader : String) : String :=
  let subject := pyStrip subjectHeader
  if subject ≠ "" ∧ ¬(pyStartsWith (pyLower subject) "re:" = true) then
    "Re: " ++ subject
  else if subject = "" then "Re:"
  else subject

/-! ### ComposeEngine: the body editor invariant -/

/-- Compose body portion of the view state.  Row and column are modelled as
integers, as Python integers are signed; the claim quantifies over arbitrary
starting values including out-of-range ones. -/
structure ComposeBodyState where
  lines : List String
  row : Int
  col : Int
deriving DecidableEq

/-- Common curses key codes used by the body editor dispatch. -/
def keyDown : Int := 258
def keyUp : Int := 259
def keyLeft : Int := 260
def keyRight : Int := 261
def keyHome : Int := 262
def keyBackspace : Int := 263
def keyDc : Int := 330
def keyNpage : Int := 338
def keyPpage : Int := 339
def keyEnter : Int := 343
def keyEnd : Int := 360

/-- Indexing of a body line by a clamped integer row. -/
def lineAt (lines : List String) (i : Int) : String :=
  lines.getD i.toNat ""

/-- Length of a string as an integer. -/
def strLen (s : String) : Int := (s.data.length : Int)

/-- Python slice text with an upper bound, for a non-negative index. -/
def strTake (s : String) (i : Int) : String := ⟨s.data.take i.toNat⟩

/-- Python slice text with a lower bound, for a non-negative index. -/
def strDrop (s : String) (i : Int) : String := ⟨s.data.drop i.toNat⟩

/-- Model of TuiMailApp._ensure_compose_body_valid: replace an empty line
list, then clamp row and column into range. -/
def ensure_compose_body_valid (st : ComposeBodyState) : ComposeBodyState :=
  let lines := if st.lines = [] then [""] else st.lines
  let row := max 0 (min st.row ((lines.length : Int) - 1))
  let col := max 0 (min st.col (strLen (lineAt lines row)))
  ⟨lines, row, col⟩

/-- Branch dispatch of TuiMailApp._edit_body on the pressed key, before the
final clamping; returns the updated lines, row and column. -/
def editBodyCore (ch : Int) (lines : List String) (row col : Int) :
    List String × Int × Int :=
  let line := lineAt lines row
  if ch = keyUp then
    if row > 0 then
      (lines, row - 1, min col (strLen (lineAt lines (row - 1))))
    else (lines, row, col)
  else if ch = keyDown then
    if row + 1 < (lines.length : Int) then
      (lines, row + 1, min col (strLen (lineAt lines (row + 1))))
    else (lines, row, col)
  else if ch = keyLeft then
    if col > 0 then (lines, row, col - 1)
    else if row > 0 then (lines, row - 1, strLen (lineAt lines (row - 1)))
    else (lines, row, col)
  else if ch = keyRight then
    if col < strLen line then (lines, row, col + 1)
    else if row + 1 < (lines.length : Int) then (lines, row + 1, 0)
    else (lines, row, col)
  else if ch = keyHome then (lines, row, 0)
  else if ch = keyEnd then (lines, row, strLen line)
  else if ch = keyBackspace ∨ ch = 127 ∨ ch = 8 then
    if col > 0 then
      (lines.set row.toNat (strTake line (col - 1) ++ strDrop line col),
        row, col - 1)
    else if row > 0 then
      let prev := lineAt lines (row - 1)
      ((lines.set (row - 1).toNat (prev ++ line)).eraseIdx row.toNat,
        row - 1, strLen prev)
    else (lines, row, col)
  else if ch = keyDc then
    if col < strLen line then
      (lines.set row.toNat (strTake line col ++ strDrop line (col + 1)),
        row, col)
    else if row + 1 < (lines.length : Int) then
      ((lines.set row.toNat (line ++ lineAt lines (row + 1))).eraseIdx
          (row + 1).toNat,
        row, col)
    else (lines, row, col)
  else if ch = keyEnter ∨ ch = 10 ∨ ch = 13 then
    let left := strTake line col
    let right := strDrop line col
    (List.insertIdx (row + 1).toNat right (lines.set row.toNat left),
      row + 1, 0)
  else if ch = keyNpage then
    let row := min ((lines.length : Int) - 1) (row + 10)
    (lines, row, min col (strLen (lineAt lines row)))
  else if ch = keyPpage then
    let row := max 0 (row - 10)
    (lines, row, min col (strLen (lineAt lines row)))
  else if 32 ≤ ch ∧ ch ≤ 126 then
    (lines.set row.toNat
        (strTake line col ++ String.singleton (Char.ofNat ch.toNat)
          ++ strDrop line col),
      row, col + 1)
  else (lines, row, col)

/-- Model of TuiMailApp._edit_body: validate the state, clamp the working
column, dispatch on the key, then clamp row and column into the updated
lines. -/
def edit_body (ch : Int) (st : ComposeBodyState) : ComposeBodyState :=
  let st := ensure_compose_body_valid st
  let col0 := max 0 (min st.col (strLen (lineAt st.lines st.row)))
  let next := editBodyCore ch st.lines st.row col0
  let lines := next.1
  let row := max 0 (min next.2.1 ((lines.length : Int) - 1))
  let col := max 0 (min next.2.2 (strLen (lineAt lines row)))
  ⟨lines, row, col⟩

/-! ### Concrete inputs used by witnesses and counterexamples -/

deriving instance DecidableEq for Except

/-- Error text of 401 characters, one above the display truncation limit. -/
def longErrText : String := ⟨List.replicate 401 'a'⟩

/-- Backend behaviour that fails with the long error text on stderr. -/
def ceExec4 : List String → ProcResult := fun _ => ⟨1, "", longErrText⟩

/-- Backend behaviour whose failures carry a success-shaped message. -/
def wExec2 : List String → ProcResult :=
  fun _ => ⟨1, "Successfully sent message", ""⟩

/-- Stdin-variant of wExec2. -/
def wExecIn2 : List String → String → ProcResult :=
  fun _ _ => ⟨1, "Successfully sent message", ""⟩

/-- Command vector used by the soft-success witness. -/
def wCmd2 : List String := ["himalaya", "--quiet", "message", "send"]

/-- Backend behaviour that rejects the quiet flag and succeeds without it. -/
def wExec5 : List String → ProcResult := fun cmd =>
  if cmd.contains "--quiet" then
    ⟨2, "", "error: unexpected argument \x27--quiet\x27 found"⟩
  else ⟨0, "plain output", ""⟩

/-- Stdin-variant of wExec5. -/
def wExecIn5 : List String → String → ProcResult := fun cmd _ =>
  if cmd.contains "--quiet" then
    ⟨2, "", "error: unexpected argument \x27--quiet\x27 found"⟩
  else ⟨0, "plain output", ""⟩

/-- Command vector used by the quiet-flag witness. -/
def wCmd5 : List String := ["himalaya", "--quiet", "folder", "list"]

/-- Backend behaviour for the delete witness: the delete command fails with a
missing-trash error, the flag-add fallback succeeds. -/
def wExec3 : List String → ProcResult := fun cmd =>
  if cmd.contains "flag" then ⟨0, "ok", ""⟩
  else ⟨1, "", "cannot move imap message: no folder Trash"⟩

/-- Client configuration used by the delete witness. -/
def wCfg3 : ClientCfg := ⟨"himalaya", "", "INBOX"⟩

/-- Backend behaviour that fails every command with a hard error. -/
def wExecErr : List String → ProcResult := fun _ => ⟨1, "", "backend down"⟩

/-- Stdin-variant of wExecErr. -/
def wExecInErr : List String → String → ProcResult :=
  fun _ _ => ⟨1, "", "backend down"⟩

/-- Page fetch that always succeeds with one row. -/
def wListEnvOk : ListEnvelopes := fun _ _ _ _ => .ok ([⟨1, "1 hi"⟩], "1 hi")

/-- Page fetch that always fails. -/
def wListEnvErr : ListEnvelopes := fun _ _ _ _ => .error "boom"

/-- View state on page 2 of a non-inbox folder of another account. -/
def wState7 : AppState :=
  { account := "old", folder := "Archive", pageSize := 20, page := 2,
    sender := "old@x", rows := [], rawPageText := "", cursor := 0,
    listScroll := 0, mode := "message", status := "",
    currentMessageId := some 5, messageLines := ["a"], messageScroll := 1,
    messageTitle := "t" }

/-! ### Lemmas: string stripping -/

theorem dropWhile_dropWhile (p : Char → Bool) (l : List Char) :
    List.dropWhile p (List.dropWhile p l) = List.dropWhile p l := by
  induction l with
  | nil => rfl
  | cons c rest ih =>
    by_cases h : p c
    · simp [List.dropWhile_cons, h, ih]
    · simp [List.dropWhile_cons, h]

theorem rstripL_cons (c : Char) (l : List Char) :
    rstripL (c :: l)
      = match rstripL l with
        | [] => if isPySpace c then [] else [c]
        | r :: rs => c :: r :: rs := rfl

theorem rstripL_idem (l : List Char) : rstripL (rstripL l) = rstripL l := by
  induction l with
  | nil => rfl
  | cons c rest ih =>
    cases h : rstripL rest with
    | nil =>
      by_cases hc : isPySpace c
      · simp [rstripL, h, hc]
      · simp [rstripL, h, hc]
    | cons r rs =>
      rw [h] at ih
      have hcr : rstripL (c :: rest) = c :: r :: rs := by
        rw [rstripL_cons, h]
      rw [hcr, rstripL_cons, ih]

theorem dropWhile_rstripL (l : List Char)
    (h : List.dropWhile isPySpace l = l) :
    List.dropWhile isPySpace (rstripL l) = rstripL l := by
  cases l with
  | nil => rfl
  | cons c rest =>
    have hc : isPySpace c = false := by
      by_contra hcc
      have hc' : isPySpace c = true := by
        cases hcv : isPySpace c
        · exact absurd hcv hcc
        · rfl
      rw [List.dropWhile_cons, hc'] at h
      have := congrArg List.length h
      have hle := (List.dropWhile_sublist (l := rest) isPySpace).length_le
      simp at this
      omega
    cases hr : rstripL rest with
    | nil => simp [rstripL, hr, hc, List.dropWhile_cons]
    | cons r rs => simp [rstripL, hr, List.dropWhile_cons, hc]

theorem stripL_idem (l : List Char) : stripL (stripL l) = stripL l := by
  unfold stripL
  rw [dropWhile_rstripL _ (dropWhile_dropWhile isPySpace l), rstripL_idem]

theorem pyStrip_idem (s : String) : pyStrip (pyStrip s) = pyStrip s := by
  unfold pyStrip
  exact congrArg String.mk (stripL_idem s.data)

theorem pyStrip_sanitize (x : String) :
    pyStrip (sanitize_output x) = sanitize_output x := by
  unfold sanitize_output
  exact pyStrip_idem _

/-! ### Lemmas: the runners -/

theorem runFuel_no_retry (exec : List String → ProcResult) (fuel : Nat)
    (cmd : List String)
    (h : ¬((exec cmd).returncode ≠ 0 ∧ cmd.contains "--quiet" = true
        ∧ is_quiet_unsupported (sanitize_output (exec cmd).stdout)
            (sanitize_output (exec cmd).stderr) = true)) :
    runFuel exec fuel cmd
      = classifyRun cmd (sanitize_output (exec cmd).stdout)
          (sanitize_output (exec cmd).stderr) (exec cmd).returncode := by
  cases fuel with
  | zero => rfl
  | succ n =>
    simp only [runFuel]
    rw [if_neg h]

theorem run_no_retry (exec : List String → ProcResult) (cmd : List String)
    (h : ¬((exec cmd).returncode ≠ 0 ∧ cmd.contains "--quiet" = true
        ∧ is_quiet_unsupported (sanitize_output (exec cmd).stdout)
            (sanitize_output (exec cmd).stderr) = true)) :
    run exec cmd
      = classifyRun cmd (sanitize_output (exec cmd).stdout)
          (sanitize_output (exec cmd).stderr) (exec cmd).returncode :=
  runFuel_no_retry exec _ cmd h

theorem runWithStdinFuel_no_retry (execIn : List String → String → ProcResult)
    (fuel : Nat) (cmd : List String) (rawInput : String)
    (h : ¬((execIn cmd rawInput).returncode ≠ 0 ∧ cmd.contains "--quiet" = true
        ∧ is_quiet_unsupported (sanitize_output (execIn cmd rawInput).stdout)
            (sanitize_output (execIn cmd rawInput).stderr) = true)) :
    runWithStdinFuel execIn fuel cmd rawInput
      = classifyRunWithStdin cmd (sanitize_output (execIn cmd rawInput).stdout)
          (sanitize_output (execIn cmd rawInput).stderr)
          (execIn cmd rawInput).returncode := by
  cases fuel with
  | zero => rfl
  | succ n =>
    simp only [runWithStdinFuel]
    rw [if_neg h]

theorem run_with_stdin_no_retry (execIn : List String → String → ProcResult)
    (cmd : List String) (rawInput : String)
    (h : ¬((execIn cmd rawInput).returncode ≠ 0 ∧ cmd.contains "--quiet" = true
        ∧ is_quiet_unsupported (sanitize_output (execIn cmd rawInput).stdout)
            (sanitize_output (execIn cmd rawInput).stderr) = true)) :
    run_with_stdin execIn cmd rawInput
      = classifyRunWithStdin cmd (sanitize_output (execIn cmd rawInput).stdout)
          (sanitize_output (execIn cmd rawInput).stderr)
          (execIn cmd rawInput).returncode :=
  runWithStdinFuel_no_retry execIn _ cmd rawInput h

theorem runFailMsg_sanitized (cmd : List String) (a b : String) :
    runFailMsg cmd (sanitize_output a) (sanitize_output b)
      = if sanitize_output b = "" then
          (if sanitize_output a = "" then "Command failed: " ++ joinSpace cmd
           else sanitize_output a)
        else sanitize_output b := by
  have hA := pyStrip_sanitize a
  have hB := pyStrip_sanitize b
  unfold runFailMsg
  by_cases hb : sanitize_output b = "" <;> by_cases ha : sanitize_output a = "" <;>
    simp [hb, ha, hA, hB, show pyStrip "" = "" from rfl]

/-! ### Claim C2: soft success on a non-zero exit -/

/-- C2: for every adapter command whose subprocess exits non-zero, whose
output does not trigger the quiet-flag-unsupported re-run, and whose sanitized
combined stdout and stderr contains the substring successfully
case-insensitively, the call returns the sanitized stdout as a success instead
of raising an error, both for the plain runner and for the stdin runner used
by send. -/
theorem claim_C2_soft_success (exec : List String → ProcResult)
    (execIn : List String → String → ProcResult)
    (cmd : List String) (rawInput : String) :
    ((exec cmd).returncode ≠ 0 →
      ¬(cmd.contains "--quiet" = true
          ∧ is_quiet_unsupported (sanitize_output (exec cmd).stdout)
              (sanitize_output (exec cmd).stderr) = true) →
      is_soft_success (sanitize_output (exec cmd).stdout)
          (sanitize_output (exec cmd).stderr) = true →
      run exec cmd = .ok (sanitize_output (exec cmd).stdout))
    ∧ ((execIn cmd rawInput).returncode ≠ 0 →
      ¬(cmd.contains "--quiet" = true
          ∧ is_quiet_unsupported (sanitize_output (execIn cmd rawInput).stdout)
              (sanitize_output (execIn cmd rawInput).stderr) = true) →
      is_soft_success (sanitize_output (execIn cmd rawInput).stdout)
          (sanitize_output (execIn cmd rawInput).stderr) = true →
      run_with_stdin execIn cmd rawInput
        = .ok (sanitize_output (execIn cmd rawInput).stdout)) := by
  constructor
  · intro h1 h2 h3
    rw [run_no_retry exec cmd (fun hcon => h2 ⟨hcon.2.1, hcon.2.2⟩)]
    unfold classifyRun
    rw [if_pos ⟨h1, h3⟩]
  · intro h1 h2 h3
    rw [run_with_stdin_no_retry execIn cmd rawInput
      (fun hcon => h2 ⟨hcon.2.1, hcon.2.2⟩)]
    unfold classifyRunWithStdin
    rw [if_pos ⟨h1, h3⟩]

/-- Witness for C2 at a concrete failing send whose output says Successfully. -/
theorem claim_C2_witness :
    run wExec2 wCmd2 = Except.ok "Successfully sent message"
      ∧ run_with_stdin wExecIn2 wCmd2 "raw" = Except.ok "Successfully sent message" := by
  constructor
  · exact ((claim_C2_soft_success wExec2 wExecIn2 wCmd2 "raw").1
      (by decide) (by decide) (by decide)).trans (by decide)
  · exact ((claim_C2_soft_success wExec2 wExecIn2 wCmd2 "raw").2
      (by decide) (by decide) (by decide)).trans (by decide)

/-! ### Claim C5: the quiet-flag re-run happens at most once -/

/-- C5: for every adapter invocation built with one quiet flag whose exit code
is non-zero and whose output indicates the quiet flag is unsupported, the
command is re-run exactly once with the quiet argument removed: the re-run
vector no longer contains the flag, and the overall result is the plain
classification of the re-run with no further retry.  Both runners are total
Lean functions, so termination holds by construction. -/
theorem claim_C5_quiet_rerun_once (exec : List String → ProcResult)
    (execIn : List String → String → ProcResult)
    (cmd : List String) (rawInput : String)
    (hc : cmd.count "--quiet" = 1) :
    "--quiet" ∉ strip_quiet_arg cmd
    ∧ ((exec cmd).returncode ≠ 0 →
      is_quiet_unsupported (sanitize_output (exec cmd).stdout)
          (sanitize_output (exec cmd).stderr) = true →
      run exec cmd
        = classifyRun (strip_quiet_arg cmd)
            (sanitize_output (exec (strip_quiet_arg cmd)).stdout)
            (sanitize_output (exec (strip_quiet_arg cmd)).stderr)
            (exec (strip_quiet_arg cmd)).returncode)
    ∧ ((execIn cmd rawInput).returncode ≠ 0 →
      is_quiet_unsupported (sanitize_output (execIn cmd rawInput).stdout)
          (sanitize_output (execIn cmd rawInput).stderr) = true →
      run_with_stdin execIn cmd rawInput
        = classifyRunWithStdin (strip_quiet_arg cmd)
            (sanitize_output (execIn (strip_quiet_arg cmd) rawInput).stdout)
            (sanitize_output (execIn (strip_quiet_arg cmd) rawInput).stderr)
            (execIn (strip_quiet_arg cmd) rawInput).returncode) := by
  have hmem : "--quiet" ∈ cmd := by
    have : 0 < cmd.count "--quiet" := by omega
    exact List.count_pos_iff.mp this
  have hcontains : cmd.contains "--quiet" = true := List.elem_iff.mpr hmem
  have hstrip : strip_quiet_arg cmd = cmd.erase "--quiet" := if_pos hmem
  have hnone : "--quiet" ∉ strip_quiet_arg cmd := by
    rw [hstrip]
    apply List.count_eq_zero.mp
    rw [List.count_erase_self, hc]
  refine ⟨hnone, ?_, ?_⟩
  · intro h1 h2
    unfold run
    rw [hc]
    simp only [runFuel]
    rw [if_pos ⟨h1, hcontains, h2⟩]
  · intro h1 h2
    unfold run_with_stdin
    rw [hc]
    simp only [runWithStdinFuel]
    rw [if_pos ⟨h1, hcontains, h2⟩]

/-- Witness for C5 at a backend that rejects the quiet flag once. -/
theorem claim_C5_witness :
    "--quiet" ∉ strip_quiet_arg wCmd5
      ∧ run wExec5 wCmd5 = Except.ok "plain output"
      ∧ run_with_stdin wExecIn5 wCmd5 "raw" = Except.ok "plain output" := by
  have h := claim_C5_quiet_rerun_once wExec5 wExecIn5 wCmd5 "raw" (by decide)
  refine ⟨h.1, ?_, ?_⟩
  · exact (h.2.1 (by decide) (by decide)).trans (by decide)
  · exact (h.2.2 (by decide) (by decide)).trans (by decide)

/-! ### Claim C4: the hard-failure error message -/

/-- C4 as amended: a non-zero exit matching none of the reclassification cases
fails with an error whose message is the sanitized stderr, falling back to the
sanitized stdout when stderr is empty, with no truncation applied to the
raised message (truncation to a bounded length only happens later for log
display); when both streams are empty the message is the synthesized generic
command-failed text. -/
theorem claim_C4_hard_failure_message (exec : List String → ProcResult)
    (execIn : List String → String → ProcResult)
    (cmd : List String) (rawInput : String) :
    ((exec cmd).returncode ≠ 0 →
      ¬(cmd.contains "--quiet" = true
          ∧ is_quiet_unsupported (sanitize_output (exec cmd).stdout)
              (sanitize_output (exec cmd).stderr) = true) →
      is_soft_success (sanitize_output (exec cmd).stdout)
          (sanitize_output (exec cmd).stderr) = false →
      run exec cmd
        = .error (if sanitize_output (exec cmd).stderr = "" then
            (if sanitize_output (exec cmd).stdout = "" then
              "Command failed: " ++ joinSpace cmd
             else sanitize_output (exec cmd).stdout)
          else sanitize_output (exec cmd).stderr))
    ∧ ((execIn cmd rawInput).returncode ≠ 0 →
      ¬(cmd.contains "--quiet" = true
          ∧ is_quiet_unsupported (sanitize_output (execIn cmd rawInput).stdout)
              (sanitize_output (execIn cmd rawInput).stderr) = true) →
      is_soft_success (sanitize_output (execIn cmd rawInput).stdout)
          (sanitize_output (execIn cmd rawInput).stderr) = false →
      is_send_copy_failure cmd (sanitize_output (execIn cmd rawInput).stdout)
          (sanitize_output (execIn cmd rawInput).stderr) = false →
      run_with_stdin execIn cmd rawInput
        = .error (if sanitize_output (execIn cmd rawInput).stderr = "" then
            (if sanitize_output (execIn cmd rawInput).stdout = "" then
              "Command failed: " ++ joinSpace cmd
             else sanitize_output (execIn cmd rawInput).stdout)
          else sanitize_output (execIn cmd rawInput).stderr)) := by
  constructor
  · intro h1 h2 h3
    rw [run_no_retry exec cmd (fun hcon => h2 ⟨hcon.2.1, hcon.2.2⟩)]
    unfold classifyRun
    rw [if_neg (fun hcon => by rw [h3] at hcon; exact Bool.false_ne_true hcon.2),
      if_pos h1, runFailMsg_sanitized]
  · intro h1 h2 h3 h4
    rw [run_with_stdin_no_retry execIn cmd rawInput
      (fun hcon => h2 ⟨hcon.2.1, hcon.2.2⟩)]
    unfold classifyRunWithStdin
    rw [if_neg (fun hcon => by rw [h3] at hcon; exact Bool.false_ne_true hcon.2),
      if_neg (fun hcon => by rw [h4] at hcon; exact Bool.false_ne_true hcon.2),
      if_pos h1, runFailMsg_sanitized]

/-- Witness for C4 as amended, at a concrete hard failure. -/
theorem claim_C4_witness :
    run wExecErr ["himalaya", "folder", "list"] = Except.error "backend down"
      ∧ run_with_stdin wExecInErr ["himalaya", "folder", "list"] "raw"
        = Except.error "backend down" := by
  constructor
  · exact ((claim_C4_hard_failure_message wExecErr wExecInErr
      ["himalaya", "folder", "list"] "raw").1
      (by decide) (by decide) (by decide)).trans (by decide)
  · exact ((claim_C4_hard_failure_message wExecErr wExecInErr
      ["himalaya", "folder", "list"] "raw").2
      (by decide) (by decide) (by decide) (by decide)).trans (by decide)

set_option maxRecDepth 8000 in
/-- Counterexample to C4 as stated: with a sanitized stderr of 401 characters
the raised message is the full text, which is longer than the display bound
and differs from its own truncation, so the error does not carry a truncated
message. -/
theorem claim_C4_counterexample :
    run ceExec4 ["himalaya"] = Except.error longErrText
      ∧ truncateText longErrText 400 ≠ longErrText
      ∧ run ceExec4 ["himalaya"]
          ≠ Except.error (truncateText longErrText 400) := by
  refine ⟨by decide, by decide, by decide⟩

/-! ### Claim C3: the delete fallback -/

/-- C3: when the initial delete fails with an error recognised as a
missing-trash condition, delete_message retries exactly once as a flag-add of
the deleted flag and returns the result of that fallback, composing one error
naming both failures when the fallback also fails; any other delete failure
is re-raised unchanged. -/
theorem claim_C3_delete_fallback (exec : List String → ProcResult)
    (c : ClientCfg) (envelopeId : Nat) (e : String)
    (h : run exec (deleteCmd c envelopeId) = .error e) :
    (is_missing_trash_error e = true →
      delete_message exec c envelopeId
        = match run exec ([c.binary, "--quiet", "flag", "add", "--folder",
            c.folder, toString envelopeId, "deleted"] ++ accountArgs c) with
          | .ok out => .ok out
          | .error fallbackErr => .error (composedDeleteError fallbackErr))
    ∧ (is_missing_trash_error e = false →
      delete_message exec c envelopeId = .error e) := by
  constructor
  · intro hm
    unfold delete_message
    rw [h]
    simp only [hm, Bool.not_true]
    rw [if_neg (by decide)]
    rfl
  · intro hn
    unfold delete_message
    rw [h]
    simp only [hn, Bool.not_false]
    rw [if_pos trivial]

/-- Witness for C3 at a backend whose delete reports a missing trash folder
and whose flag-add fallback succeeds. -/
theorem claim_C3_witness :
    delete_message wExec3 wCfg3 7 = Except.ok "ok" := by
  have h := (claim_C3_delete_fallback wExec3 wCfg3 7
    "cannot move imap message: no folder Trash" (by decide)).1 (by decide)
  exact h.trans (by decide)

/-! ### Claim C8: the reply subject -/

/-- C8: the reply subject of an opened message equals the Re: marker with a
space followed by the original subject when that subject is non-empty and does
not already start with the marker case-insensitively, equals the bare marker
when the subject is empty, and is unchanged when it already starts with the
marker case-insensitively.  The parsed subject header is always stripped, so
the claim is stated for trimmed subjects. -/
theorem claim_C8_reply_subject (s : String) (h : pyStrip s = s) :
    ((s ≠ "" → pyStartsWith (pyLower s) "re:" = false →
        replySubject s = "Re: " ++ s)
      ∧ (s = "" → replySubject s = "Re:")
      ∧ (pyStartsWith (pyLower s) "re:" = true → replySubject s = s))
    ∧ replySubject "Hello" = "Re: Hello"
    ∧ replySubject "" = "Re:"
    ∧ replySubject "RE: hi" = "RE: hi" := by
  refine ⟨⟨?_, ?_, ?_⟩, by decide, by decide, by decide⟩
  · intro h1 h2
    unfold replySubject
    rw [h]
    rw [if_pos ⟨h1, by simp [h2]⟩]
  · intro h1
    unfold replySubject
    rw [h]
    rw [if_neg (fun hcon => hcon.1 h1), if_pos h1]
  · intro h3
    have hs : s ≠ "" := by
      intro he
      rw [he] at h3
      exact absurd h3 (by decide)
    unfold replySubject
    rw [h]
    rw [if_neg (fun hcon => hcon.2 h3), if_neg hs]

/-- Witness for C8 at the three concrete subjects of the claim. -/
theorem claim_C8_witness :
    replySubject "Hello" = "Re: Hello"
      ∧ replySubject "" = "Re:"
      ∧ replySubject "RE: hi" = "RE: hi" := by
  refine ⟨?_, ?_, ?_⟩
  · exact ((claim_C8_reply_subject "Hello" (by decide)).1).1
      (by decide) (by decide)
  · exact ((claim_C8_reply_subject "" (by decide)).1).2.1 (by decide)
  · exact ((claim_C8_reply_subject "RE: hi" (by decide)).1).2.2 (by decide)

/-! ### Claim C6: envelope line parsing -/

theorem parseEnvelopeLoop_eq_filterMap (ls : List String) :
    parseEnvelopeLoop ls = ls.filterMap specEnvelopeLine := by
  induction ls with
  | nil => rfl
  | cons l rest ih =>
    rw [List.filterMap_cons]
    by_cases h : pyRstrip l = ""
    · have hs : specEnvelopeLine l = none := by
        unfold specEnvelopeLine
        rw [if_pos h]
      rw [hs]
      unfold parseEnvelopeLoop
      rw [if_pos h, ih]
    · cases hf : findEnvelopeId (pyRstrip l) with
      | none =>
        have hs : specEnvelopeLine l = none := by
          unfold specEnvelopeLine
          rw [if_neg h, hf]
          rfl
        rw [hs]
        unfold parseEnvelopeLoop
        rw [if_neg h, hf, ih]
      | some n =>
        have hs : specEnvelopeLine l = some ⟨n, pyRstrip l⟩ := by
          unfold specEnvelopeLine
          rw [if_neg h, hf]
          rfl
        rw [hs]
        unfold parseEnvelopeLoop
        rw [if_neg h, hf, ih]

/-- C6: envelope parsing keeps exactly the non-empty lines matching the
leading-integer or bar-delimited pattern, producing for each a row whose id is
the matched integer and whose line is the right-trimmed input kept verbatim;
both quoted shapes of the claim yield id 42 (with ASCII and box-drawing
bars), and a line matching neither pattern is dropped. -/
theorem claim_C6_envelope_parsing (raw : String) :
    parse_envelope_rows raw = (pySplitlines raw).filterMap specEnvelopeLine
    ∧ parse_envelope_rows "  42  Subject text"
        = [⟨42, "  42  Subject text"⟩]
    ∧ parse_envelope_rows "| 42 | Subject text |"
        = [⟨42, "| 42 | Subject text |"⟩]
    ∧ parse_envelope_rows "│ 42 │ Subject text │"
        = [⟨42, "│ 42 │ Subject text │"⟩]
    ∧ parse_envelope_rows "ID  FROM  SUBJECT" = [] := by
  exact ⟨parseEnvelopeLoop_eq_filterMap _, by decide, by decide, by decide,
    by decide⟩

/-! ### Claim C10: the compose body invariant -/

theorem ensure_lines_ne_nil (st : ComposeBodyState) :
    (ensure_compose_body_valid st).lines ≠ [] := by
  unfold ensure_compose_body_valid
  by_cases h : st.lines = [] <;> simp [h]

theorem ensure_row_bounds (st : ComposeBodyState) :
    0 ≤ (ensure_compose_body_valid st).row
      ∧ (ensure_compose_body_valid st).row
          < ((ensure_compose_body_valid st).lines.length : Int) := by
  have hne := ensure_lines_ne_nil st
  have hL : 0 < (ensure_compose_body_valid st).lines.length :=
    List.length_pos.mpr hne
  unfold ensure_compose_body_valid at hL ⊢
  dsimp only at hL ⊢
  omega

set_option maxHeartbeats 1000000 in
theorem editBodyCore_length_pos (ch : Int) (lines : List String)
    (row col : Int) (hne : lines ≠ []) (h0 : 0 ≤ row)
    (hr : row < (lines.length : Int)) :
    0 < (editBodyCore ch lines row col).1.length := by
  have hL : 0 < lines.length := List.length_pos.mpr hne
  have hins := List.length_le_length_insertIdx
    (lines.set row.toNat (strTake (lineAt lines row) col))
    (strDrop (lineAt lines row) col) (row + 1).toNat
  rw [List.length_set] at hins
  unfold editBodyCore
  by_cases h1 : ch = keyUp
  case pos => rw [if_pos h1]; split <;> dsimp only <;> omega
  rw [if_neg h1]
  by_cases h2 : ch = keyDown
  case pos => rw [if_pos h2]; split <;> dsimp only <;> omega
  rw [if_neg h2]
  by_cases h3 : ch = keyLeft
  case pos =>
    rw [if_pos h3]
    split
    · dsimp only; omega
    · split <;> dsimp only <;> omega
  rw [if_neg h3]
  by_cases h4 : ch = keyRight
  case pos =>
    rw [if_pos h4]
    split
    · dsimp only; omega
    · split <;> dsimp only <;> omega
  rw [if_neg h4]
  by_cases h5 : ch = keyHome
  case pos => rw [if_pos h5]; dsimp only; omega
  rw [if_neg h5]
  by_cases h6 : ch = keyEnd
  case pos => rw [if_pos h6]; dsimp only; omega
  rw [if_neg h6]
  by_cases h7 : ch = keyBackspace ∨ ch = 127 ∨ ch = 8
  case pos =>
    rw [if_pos h7]
    split
    · dsimp only; simp only [List.length_set]; omega
    · split
      · dsimp only
        simp only [List.length_eraseIdx, List.length_set]
        split <;> omega
      · dsimp only; omega
  rw [if_neg h7]
  by_cases h8 : ch = keyDc
  case pos =>
    rw [if_pos h8]
    split
    · dsimp only; simp only [List.length_set]; omega
    · split
      · dsimp only
        simp only [List.length_eraseIdx, List.length_set]
        split <;> omega
      · dsimp only; omega
  rw [if_neg h8]
  by_cases h9 : ch = keyEnter ∨ ch = 10 ∨ ch = 13
  case pos => rw [if_pos h9]; dsimp only; omega
  rw [if_neg h9]
  by_cases h10 : ch = keyNpage
  case pos => rw [if_pos h10]; dsimp only; omega
  rw [if_neg h10]
  by_cases h11 : ch = keyPpage
  case pos => rw [if_pos h11]; dsimp only; omega
  rw [if_neg h11]
  by_cases h12 : 32 ≤ ch ∧ ch ≤ 126
  case pos => rw [if_pos h12]; dsimp only; simp only [List.length_set]; omega
  rw [if_neg h12]
  dsimp only
  omega

/-- C10: after every compose-body key event, the compose state satisfies the
invariant: the line list is non-empty, the row is within it, and the column is
within the line at the row, for every starting state including out-of-range
rows and columns. -/
theorem claim_C10_body_invariant (ch : Int) (st : ComposeBodyState) :
    (edit_body ch st).lines ≠ []
    ∧ 0 ≤ (edit_body ch st).row
    ∧ (edit_body ch st).row < ((edit_body ch st).lines.length : Int)
    ∧ 0 ≤ (edit_body ch st).col
    ∧ (edit_body ch st).col
        ≤ strLen (lineAt (edit_body ch st).lines (edit_body ch st).row) := by
  have hne := ensure_lines_ne_nil st
  have hrb := ensure_row_bounds st
  have hpos := editBodyCore_length_pos ch (ensure_compose_body_valid st).lines
    (ensure_compose_body_valid st).row
    (max 0 (min (ensure_compose_body_valid st).col
      (strLen (lineAt (ensure_compose_body_valid st).lines
        (ensure_compose_body_valid st).row))))
    hne hrb.1 hrb.2
  unfold edit_body
  dsimp only
  refine ⟨?_, ?_, ?_, ?_, ?_⟩
  · exact List.ne_nil_of_length_pos hpos
  · omega
  · omega
  · omega
  · have hM : 0 ≤ strLen (lineAt
        (editBodyCore ch (ensure_compose_body_valid st).lines
          (ensure_compose_body_valid st).row
          (max 0 (min (ensure_compose_body_valid st).col
            (strLen (lineAt (ensure_compose_body_valid st).lines
              (ensure_compose_body_valid st).row))))).1
        (max 0 (min (editBodyCore ch (ensure_compose_body_valid st).lines
          (ensure_compose_body_valid st).row
          (max 0 (min (ensure_compose_body_valid st).col
            (strLen (lineAt (ensure_compose_body_valid st).lines
              (ensure_compose_body_valid st).row))))).2.1
          (((editBodyCore ch (ensure_compose_body_valid st).lines
            (ensure_compose_body_valid st).row
            (max 0 (min (ensure_compose_body_valid st).col
              (strLen (lineAt (ensure_compose_body_valid st).lines
                (ensure_compose_body_valid st).row))))).1.length : Int)
            - 1)))) := Int.natCast_nonneg _
    omega

/-! ### Claim C7: the account switch -/

theorem load_page_account (listEnv : ListEnvelopes) (rc : Bool) (msg : String)
    (st : AppState) :
    (load_page listEnv rc msg st).1.account = st.account := by
  unfold load_page
  dsimp only
  cases listEnv st.account st.folder st.pageSize st.page with
  | error e => dsimp only; split_ifs <;> rfl
  | ok v => obtain ⟨rows, raw⟩ := v; dsimp only; split_ifs <;> rfl

theorem load_page_folder (listEnv : ListEnvelopes) (rc : Bool) (msg : String)
    (st : AppState) :
    (load_page listEnv rc msg st).1.folder = st.folder := by
  unfold load_page
  dsimp only
  cases listEnv st.account st.folder st.pageSize st.page with
  | error e => dsimp only; split_ifs <;> rfl
  | ok v => obtain ⟨rows, raw⟩ := v; dsimp only; split_ifs <;> rfl

theorem load_page_pageSize (listEnv : ListEnvelopes) (rc : Bool) (msg : String)
    (st : AppState) :
    (load_page listEnv rc msg st).1.pageSize = st.pageSize := by
  unfold load_page
  dsimp only
  cases listEnv st.account st.folder st.pageSize st.page with
  | error e => dsimp only; split_ifs <;> rfl
  | ok v => obtain ⟨rows, raw⟩ := v; dsimp only; split_ifs <;> rfl

theorem load_page_sender (listEnv : ListEnvelopes) (rc : Bool) (msg : String)
    (st : AppState) :
    (load_page listEnv rc msg st).1.sender = st.sender := by
  unfold load_page
  dsimp only
  cases listEnv st.account st.folder st.pageSize st.page with
  | error e => dsimp only; split_ifs <;> rfl
  | ok v => obtain ⟨rows, raw⟩ := v; dsimp only; split_ifs <;> rfl

theorem load_page_snd (listEnv : ListEnvelopes) (rc : Bool) (msg : String)
    (st : AppState) :
    (load_page listEnv rc msg st).2
      = match listEnv st.account st.folder st.pageSize st.page with
        | Except.ok _ => true
        | Except.error _ => false := by
  unfold load_page
  dsimp only
  cases listEnv st.account st.folder st.pageSize st.page with
  | error e => rfl
  | ok v => obtain ⟨rows, raw⟩ := v; rfl

theorem load_page_page (listEnv : ListEnvelopes) (rc : Bool) (msg : String)
    (st : AppState) :
    (load_page listEnv rc msg st).1.page
      = match listEnv st.account st.folder st.pageSize st.page with
        | Except.ok _ => st.page
        | Except.error _ => if st.page > 1 then st.page - 1 else st.page := by
  unfold load_page
  dsimp only
  cases listEnv st.account st.folder st.pageSize st.page with
  | error e => dsimp only; split_ifs <;> rfl
  | ok v => obtain ⟨rows, raw⟩ := v; dsimp only; split_ifs <;> rfl

/-- C7 as amended: a confirmed account switch sets the account to the target,
the folder to INBOX and the page to one, and replaces the default sender only
when config resolution returns a non-empty sender; when the subsequent page
load fails, the previous account, folder and sender are restored, and the
page is restored to its previous value except that the restoring reload of
the previous account, when it also fails and the previous page is above one,
leaves the page one below the previous value (the generic page-load failure
decrement). -/
theorem claim_C7_account_switch (listEnv : ListEnvelopes) (resolve : String → String)
    (target defaultAccount : String) (st : AppState) :
    ((∃ v, listEnv target "INBOX" st.pageSize 1 = Except.ok v) →
      (switch_account listEnv resolve target defaultAccount st).account = target
        ∧ (switch_account listEnv resolve target defaultAccount st).folder = "INBOX"
        ∧ (switch_account listEnv resolve target defaultAccount st).page = 1
        ∧ (switch_account listEnv resolve target defaultAccount st).sender
            = (if resolve target ≠ "" then resolve target else st.sender))
    ∧ ((∃ e, listEnv target "INBOX" st.pageSize 1 = Except.error e) →
      (switch_account listEnv resolve target defaultAccount st).account = st.account
        ∧ (switch_account listEnv resolve target defaultAccount st).folder = st.folder
        ∧ (switch_account listEnv resolve target defaultAccount st).sender = st.sender
        ∧ (∀ v, listEnv st.account st.folder st.pageSize st.page = Except.ok v →
            (switch_account listEnv resolve target defaultAccount st).page = st.page)
        ∧ (∀ e2, listEnv st.account st.folder st.pageSize st.page = Except.error e2 →
            (switch_account listEnv resolve target defaultAccount st).page
              = if st.page > 1 then st.page - 1 else st.page)) := by
  constructor
  · rintro ⟨v, hv⟩
    unfold switch_account
    dsimp only
    by_cases hs : resolve target = "" <;>
      simp [hs, load_page_snd, load_page_page, load_page_account,
        load_page_folder, load_page_pageSize, load_page_sender, hv]
  · rintro ⟨e, he⟩
    unfold switch_account
    dsimp only
    refine ⟨?_, ?_, ?_, ?_, ?_⟩
    · by_cases hs : resolve target = "" <;>
        simp [hs, load_page_snd, load_page_page, load_page_account,
          load_page_folder, load_page_pageSize, load_page_sender, he]
    · by_cases hs : resolve target = "" <;>
        simp [hs, load_page_snd, load_page_page, load_page_account,
          load_page_folder, load_page_pageSize, load_page_sender, he]
    · by_cases hs : resolve target = "" <;>
        simp [hs, load_page_snd, load_page_page, load_page_account,
          load_page_folder, load_page_pageSize, load_page_sender, he]
    · intro v2 hold
      by_cases hs : resolve target = "" <;>
        simp [hs, load_page_snd, load_page_page, load_page_account,
          load_page_folder, load_page_pageSize, load_page_sender, he, hold]
    · intro e2 hold
      by_cases hs : resolve target = "" <;>
        simp [hs, load_page_snd, load_page_page, load_page_account,
          load_page_folder, load_page_pageSize, load_page_sender, he, hold]

/-- Witness for C7 at one succeeding and one failing backend. -/
theorem claim_C7_witness :
    (switch_account wListEnvOk (fun _ => "") "work" "" wState7).account = "work"
      ∧ (switch_account wListEnvOk (fun _ => "") "work" "" wState7).page = 1
      ∧ (switch_account wListEnvErr (fun _ => "") "work" "" wState7).sender
          = "old@x" := by
  have hOk := (claim_C7_account_switch wListEnvOk (fun _ => "") "work" ""
    wState7).1 ⟨([⟨1, "1 hi"⟩], "1 hi"), rfl⟩
  have hErr := (claim_C7_account_switch wListEnvErr (fun _ => "") "work" ""
    wState7).2 ⟨"boom", rfl⟩
  exact ⟨hOk.1, hOk.2.2.1, hErr.2.2.1.trans (by decide)⟩

/-- Counterexample to C7 as stated: with a backend whose loads always fail
and a previous page of two, the account, folder and sender are restored but
the final page is one, not the previous two, because the restoring reload
fails and applies the page decrement of the generic load-failure path. -/
theorem claim_C7_counterexample :
    wState7.page = 2
      ∧ (switch_account wListEnvErr (fun _ => "") "work" "" wState7).page = 1
      ∧ (switch_account wListEnvErr (fun _ => "") "work" "" wState7).page
          ≠ wState7.page := by
  refine ⟨rfl, by decide, by decide⟩

/-! ### Claims C1 and C9: folder normalization and de-duplication -/

theorem normalizeUnique_eq_spec (rows : List FolderRow) :
    ∀ seen : List String,
      normalizeUnique seen rows
        = dedupFoldersSpec (rows.filter (fun r => decide (folderKeyOf r ∉ seen))) := by
  induction rows with
  | nil => intro seen; simp [normalizeUnique, dedupFoldersSpec]
  | cons r rest ih =>
    intro seen
    by_cases h2 : folderKeyOf r ∈ seen
    · rw [List.filter_cons_of_neg (by simpa using h2)]
      rw [normalizeUnique]
      rw [if_pos (Or.inr h2)]
      exact ih seen
    · rw [List.filter_cons_of_pos (by simpa using h2)]
      by_cases h1 : folderKeyOf r = ""
      · rw [normalizeUnique, if_pos (Or.inl h1), dedupFoldersSpec]
        rw [if_pos h1]
        exact ih seen
      · rw [normalizeUnique, if_neg (by push_neg; exact ⟨h1, h2⟩), dedupFoldersSpec]
        rw [if_neg h1]
        rw [ih (folderKeyOf r :: seen)]
        rw [List.filter_filter]
        congr 1
        apply congrArg dedupFoldersSpec
        apply List.filter_congr
        intro a _
        by_cases ha1 : folderKeyOf a = folderKeyOf r <;>
          by_cases ha2 : folderKeyOf a ∈ seen <;>
            simp [ha1, ha2, List.mem_cons]

theorem mem_dedupFoldersSpec (l : List FolderRow) (m : FolderRow)
    (hm : m ∈ dedupFoldersSpec l) :
    ∃ r ∈ l, m = ⟨pyStrip r.name, pyStrip r.desc⟩ := by
  induction l using dedupFoldersSpec.induct with
  | case1 => simp [dedupFoldersSpec] at hm
  | case2 r rest key hkey ih =>
    rw [dedupFoldersSpec, if_pos hkey] at hm
    obtain ⟨x, hx1, hx2⟩ := ih hm
    exact ⟨x, List.mem_cons_of_mem _ hx1, hx2⟩
  | case3 r rest key hkey ih =>
    rw [dedupFoldersSpec, if_neg hkey] at hm
    rcases List.mem_cons.mp hm with rfl | hm2
    · exact ⟨r, List.mem_cons_self _ _, rfl⟩
    · obtain ⟨x, hx1, hx2⟩ := ih hm2
      exact ⟨x, List.mem_cons_of_mem _ (List.mem_of_mem_filter hx1), hx2⟩

theorem pairwise_dedupFoldersSpec (l : List FolderRow) :
    List.Pairwise (fun a b => pyLower a.name ≠ pyLower b.name)
      (dedupFoldersSpec l) := by
  induction l using dedupFoldersSpec.induct with
  | case1 => simp [dedupFoldersSpec]
  | case2 r rest key hkey ih =>
    rw [dedupFoldersSpec, if_pos hkey]
    exact ih
  | case3 r rest key hkey ih =>
    rw [dedupFoldersSpec, if_neg hkey]
    refine List.Pairwise.cons ?_ ih
    intro m hm
    obtain ⟨x, hx1, hx2⟩ := mem_dedupFoldersSpec _ _ hm
    have hxk := List.of_mem_filter hx1
    rw [hx2]
    intro hc
    apply absurd hxk
    simp [folderKeyOf, hc.symm]

theorem exists_mem_dedupFoldersSpec (l : List FolderRow) (k : String)
    (hk : k ≠ "") (r : FolderRow) (hr : r ∈ l) (hkey : folderKeyOf r = k) :
    ∃ m ∈ dedupFoldersSpec l, pyLower m.name = k := by
  induction l using dedupFoldersSpec.induct with
  | case1 => cases hr
  | case2 r0 rest key0 hkey0 ih =>
    rw [dedupFoldersSpec, if_pos hkey0]
    rcases List.mem_cons.mp hr with rfl | hr2
    · exact absurd (hkey.symm.trans hkey0) hk
    · exact ih hr2
  | case3 r0 rest key0 hkey0 ih =>
    rw [dedupFoldersSpec, if_neg hkey0]
    by_cases hsame : folderKeyOf r0 = k
    · refine ⟨⟨pyStrip r0.name, pyStrip r0.desc⟩, List.mem_cons_self _ _, ?_⟩
      exact hsame
    · rcases List.mem_cons.mp hr with rfl | hr2
      · exact absurd hkey hsame
      · obtain ⟨m, hm1, hm2⟩ := ih (List.mem_filter.mpr ⟨hr2, by simp only [decide_eq_true_eq, hkey]; exact fun h => hsame h.symm⟩)
        exact ⟨m, List.mem_cons_of_mem _ hm1, hm2⟩

set_option maxRecDepth 4000 in
theorem charToNat_ofNat_small : ∀ n < 256, (Char.ofNat n).toNat = n := by
  decide

theorem char_eq_of_toNat_eq {a b : Char} (h : a.toNat = b.toNat) : a = b :=
  Char.ext (UInt32.eq_of_val_eq (Fin.ext h))

theorem asciiLower_toNat (c : Char) :
    (asciiLower c).toNat
      = if 65 ≤ c.toNat ∧ c.toNat ≤ 90 then c.toNat + 32 else c.toNat := by
  unfold asciiLower
  split_ifs with h
  · exact charToNat_ofNat_small (c.toNat + 32) (by omega)
  · rfl

theorem asciiUpper_toNat (c : Char) :
    (asciiUpper c).toNat
      = if 97 ≤ c.toNat ∧ c.toNat ≤ 122 then c.toNat - 32 else c.toNat := by
  unfold asciiUpper
  split_ifs with h
  · exact charToNat_ofNat_small (c.toNat - 32) (by omega)
  · rfl

theorem asciiLower_eq_iff (a b : Char) :
    asciiLower a = asciiLower b ↔ asciiUpper a = asciiUpper b := by
  constructor
  · intro h
    apply char_eq_of_toNat_eq
    have hn : (asciiLower a).toNat = (asciiLower b).toNat := by rw [h]
    rw [asciiLower_toNat, asciiLower_toNat] at hn
    rw [asciiUpper_toNat, asciiUpper_toNat]
    split_ifs at hn ⊢ <;> omega
  · intro h
    apply char_eq_of_toNat_eq
    have hn : (asciiUpper a).toNat = (asciiUpper b).toNat := by rw [h]
    rw [asciiUpper_toNat, asciiUpper_toNat] at hn
    rw [asciiLower_toNat, asciiLower_toNat]
    split_ifs at hn ⊢ <;> omega

theorem map_eq_map_iff_of_pointwise {f g : Char → Char}
    (hfg : ∀ a b, f a = f b ↔ g a = g b) :
    ∀ l1 l2 : List Char, l1.map f = l2.map f ↔ l1.map g = l2.map g
  | [], [] => by simp
  | [], _ :: _ => by simp
  | _ :: _, [] => by simp
  | a :: as, b :: bs => by
    simp only [List.map_cons, List.cons.injEq]
    rw [hfg a b, map_eq_map_iff_of_pointwise hfg as bs]

theorem pyLower_eq_iff (x y : String) :
    pyLower x = pyLower y ↔ pyUpper x = pyUpper y := by
  unfold pyLower pyUpper
  rw [String.ext_iff, String.ext_iff]
  exact map_eq_map_iff_of_pointwise asciiLower_eq_iff x.data y.data

theorem upper_eq_INBOX_iff (x : String) :
    pyUpper x = "INBOX" ↔ pyLower x = "inbox" := by
  constructor
  · intro h
    have : pyUpper x = pyUpper "INBOX" := by
      rw [h]; rfl
    have hl := (pyLower_eq_iff x "INBOX").mpr this
    rw [hl]; rfl
  · intro h
    have : pyLower x = pyLower "INBOX" := by
      rw [h]; rfl
    have hu := (pyLower_eq_iff x "INBOX").mp this
    rw [hu]; rfl

theorem insertSorted_perm (le : α → α → Bool) (x : α) :
    ∀ l : List α, (insertSorted le x l).Perm (x :: l)
  | [] => List.Perm.refl _
  | y :: ys => by
    unfold insertSorted
    split_ifs
    · exact List.Perm.refl _
    · exact ((insertSorted_perm le x ys).cons y).trans (List.Perm.swap x y ys)

theorem sortByB_perm (le : α → α → Bool) :
    ∀ l : List α, (sortByB le l).Perm l
  | [] => List.Perm.refl _
  | x :: xs => by
    unfold sortByB
    exact (insertSorted_perm le x (sortByB le xs)).trans
      ((sortByB_perm le xs).cons x)

theorem sortedByB_cons_cons (le : α → α → Bool) (a b : α) (t : List α) :
    sortedByB le (a :: b :: t) = (le a b && sortedByB le (b :: t)) := rfl

theorem sortedByB_insertSorted (le : α → α → Bool)
    (tot : ∀ a b, le a b = true ∨ le b a = true) (x : α) :
    ∀ l : List α, sortedByB le l = true →
      sortedByB le (insertSorted le x l) = true := by
  intro l
  induction l with
  | nil => intro _; rfl
  | cons y ys ih =>
    intro hs
    by_cases hxy : le x y = true
    · rw [insertSorted, if_pos hxy, sortedByB_cons_cons]
      simp [hxy, hs]
    · have hyx : le y x = true := (tot x y).resolve_left hxy
      rw [insertSorted, if_neg hxy]
      cases ys with
      | nil =>
        rw [show insertSorted le x [] = [x] from rfl, sortedByB_cons_cons]
        simp [hyx, sortedByB]
      | cons z zs =>
        have hparts : le y z = true ∧ sortedByB le (z :: zs) = true := by
          simpa [sortedByB_cons_cons, Bool.and_eq_true] using hs
        have ihz := ih hparts.2
        by_cases hxz : le x z = true
        · rw [insertSorted, if_pos hxz]
          rw [sortedByB_cons_cons]
          rw [insertSorted, if_pos hxz] at ihz
          simp [hyx, ihz]
        · rw [insertSorted, if_neg hxz]
          rw [sortedByB_cons_cons]
          rw [insertSorted, if_neg hxz] at ihz
          simp [hparts.1, ihz]

theorem sortedByB_sortByB (le : α → α → Bool)
    (tot : ∀ a b, le a b = true ∨ le b a = true) :
    ∀ l : List α, sortedByB le (sortByB le l) = true
  | [] => rfl
  | x :: xs => by
    unfold sortByB
    exact sortedByB_insertSorted le tot x _ (sortedByB_sortByB le tot xs)

theorem sortedByB_head_le (le : α → α → Bool)
    (htrans : ∀ a b c, le a b = true → le b c = true → le a c = true) :
    ∀ (h : α) (t : List α), sortedByB le (h :: t) = true →
      ∀ y ∈ t, le h y = true := by
  intro h t
  induction t generalizing h with
  | nil => intro _ y hy; cases hy
  | cons b r ih =>
    intro hs y hy
    have hparts : le h b = true ∧ sortedByB le (b :: r) = true := by
      simpa [sortedByB_cons_cons, Bool.and_eq_true] using hs
    rcases List.mem_cons.mp hy with rfl | hy2
    · exact hparts.1
    · exact htrans h b y hparts.1 (ih b hparts.2 y hy2)

theorem charListLe_cons_iff (a b : Char) (as bs : List Char) :
    charListLe (a :: as) (b :: bs) = true
      ↔ a.toNat < b.toNat ∨ (a.toNat = b.toNat ∧ charListLe as bs = true) := by
  have hdef : charListLe (a :: as) (b :: bs)
      = (if a.toNat < b.toNat then true
         else if b.toNat < a.toNat then false else charListLe as bs) := rfl
  rw [hdef]
  split_ifs with h1 h2
  · simp [h1]
  · constructor
    · intro h; simp at h
    · rintro (h | ⟨h, _⟩) <;> omega
  · have heq : a.toNat = b.toNat := by omega
    simp [heq]

theorem charListLe_total : ∀ a b : List Char,
    charListLe a b = true ∨ charListLe b a = true
  | [], _ => Or.inl rfl
  | _ :: _, [] => Or.inr rfl
  | a :: as, b :: bs => by
    rcases Nat.lt_trichotomy a.toNat b.toNat with h | h | h
    · exact Or.inl ((charListLe_cons_iff a b as bs).mpr (Or.inl h))
    · rcases charListLe_total as bs with ih | ih
      · exact Or.inl ((charListLe_cons_iff a b as bs).mpr (Or.inr ⟨h, ih⟩))
      · exact Or.inr ((charListLe_cons_iff b a bs as).mpr (Or.inr ⟨h.symm, ih⟩))
    · exact Or.inr ((charListLe_cons_iff b a bs as).mpr (Or.inl h))

theorem charListLe_trans : ∀ a b c : List Char,
    charListLe a b = true → charListLe b c = true → charListLe a c = true
  | [], _, _ => fun _ _ => rfl
  | _ :: _, [], _ => fun h _ => by simp [charListLe] at h
  | _ :: _, _ :: _, [] => fun _ h => by simp [charListLe] at h
  | a :: as, b :: bs, c :: cs => fun h1 h2 => by
    rcases (charListLe_cons_iff a b as bs).mp h1 with hlt | ⟨heq, hrest⟩ <;>
      rcases (charListLe_cons_iff b c bs cs).mp h2 with hlt2 | ⟨heq2, hrest2⟩ <;>
        apply (charListLe_cons_iff a c as cs).mpr
    · exact Or.inl (by omega)
    · exact Or.inl (by omega)
    · exact Or.inl (by omega)
    · exact Or.inr ⟨by omega, charListLe_trans as bs cs hrest hrest2⟩

theorem rowLe_iff (a b : FolderRow) :
    rowLe a b = true
      ↔ inboxRank a < inboxRank b
        ∨ (inboxRank a = inboxRank b
            ∧ charListLe (pyLower a.name).data (pyLower b.name).data = true) := by
  unfold rowLe
  simp [Bool.or_eq_true, Bool.and_eq_true, decide_eq_true_iff]

theorem rowLe_total (a b : FolderRow) :
    rowLe a b = true ∨ rowLe b a = true := by
  rcases Nat.lt_trichotomy (inboxRank a) (inboxRank b) with h | h | h
  · exact Or.inl ((rowLe_iff a b).mpr (Or.inl h))
  · rcases charListLe_total (pyLower a.name).data (pyLower b.name).data with
      hc | hc
    · exact Or.inl ((rowLe_iff a b).mpr (Or.inr ⟨h, hc⟩))
    · exact Or.inr ((rowLe_iff b a).mpr (Or.inr ⟨h.symm, hc⟩))
  · exact Or.inr ((rowLe_iff b a).mpr (Or.inl h))

theorem rowLe_trans (a b c : FolderRow) (h1 : rowLe a b = true)
    (h2 : rowLe b c = true) : rowLe a c = true := by
  rcases (rowLe_iff a b).mp h1 with hlt | ⟨heq, hrest⟩ <;>
    rcases (rowLe_iff b c).mp h2 with hlt2 | ⟨heq2, hrest2⟩ <;>
      apply (rowLe_iff a c).mpr
  · exact Or.inl (by omega)
  · exact Or.inl (by omega)
  · exact Or.inl (by omega)
  · exact Or.inr ⟨by omega, charListLe_trans _ _ _ hrest hrest2⟩


theorem scanEntries_append (xs ys : List (String × AccountCfg)) :
    ∀ st : AccScan, scanEntries st (xs ++ ys) = scanEntries (scanEntries st xs) ys := by
  induction xs with
  | nil => intro st; rfl
  | cons e rest ih =>
    intro st
    obtain ⟨rawName, cfg⟩ := e
    rw [List.cons_append]
    rw [scanEntries, scanEntries]
    by_cases h1 : pyStrip rawName = ""
    · rw [if_pos h1, if_pos h1]
      exact ih st
    · rw [if_neg h1, if_neg h1]
      by_cases h2 : pyLower (pyStrip rawName) ∈ st.seen
      · rw [if_pos h2, if_pos h2]
        exact ih st
      · rw [if_neg h2, if_neg h2]
        exact ih _

theorem scanEntries_accounts (entries : List (String × AccountCfg)) :
    ∀ (acc seen : List String) (d : String),
      (scanEntries ⟨acc, seen, d⟩ entries).accounts
        = acc ++ dedupFirst ((entries.map Prod.fst).filter
            (fun n => decide (accountKeyOf n ∉ seen))) := by
  induction entries with
  | nil => intro acc seen d; simp [scanEntries, dedupFirst]
  | cons e rest ih =>
    intro acc seen d
    obtain ⟨rawName, cfg⟩ := e
    rw [List.map_cons, scanEntries]
    dsimp only
    by_cases h1 : pyStrip rawName = ""
    · rw [if_pos h1]
      by_cases h2 : accountKeyOf rawName ∈ seen
      · rw [List.filter_cons_of_neg (by simpa using h2)]
        exact ih acc seen d
      · rw [List.filter_cons_of_pos (by simpa using h2)]
        rw [dedupFirst, if_pos h1]
        exact ih acc seen d
    · rw [if_neg h1]
      by_cases h2 : pyLower (pyStrip rawName) ∈ seen
      · rw [if_pos h2]
        rw [List.filter_cons_of_neg (by simpa [accountKeyOf] using h2)]
        exact ih acc seen d
      · rw [if_neg h2]
        rw [List.filter_cons_of_pos (by simpa [accountKeyOf] using h2)]
        rw [dedupFirst, if_neg h1]
        rw [ih]
        rw [List.filter_filter, List.append_assoc, List.singleton_append]
        congr 2
        apply congrArg dedupFirst
        apply List.filter_congr
        intro a _
        by_cases ha1 : accountKeyOf a = pyLower (pyStrip rawName) <;>
          by_cases ha2 : accountKeyOf a ∈ seen <;>
            simp [ha1, ha2, List.mem_cons, accountKeyOf]

theorem foldl_scanEntries_flatten (files : List (List (String × AccountCfg))) :
    ∀ st : AccScan, files.foldl scanEntries st = scanEntries st files.flatten := by
  induction files with
  | nil => intro st; rfl
  | cons f fs ih =>
    intro st
    rw [List.foldl_cons, ih, List.flatten_cons, scanEntries_append]

theorem list_accounts_eq_dedupFirst (files : List (List (String × AccountCfg))) :
    (list_accounts_from_config files).1
      = dedupFirst (files.flatten.map Prod.fst) := by
  unfold list_accounts_from_config
  dsimp only
  rw [foldl_scanEntries_flatten]
  rw [scanEntries_accounts files.flatten [] [] ""]
  rw [List.nil_append]
  congr 1
  apply List.filter_eq_self.mpr
  intro a _
  simp

theorem mem_dedupFirst (l : List String) (m : String) (hm : m ∈ dedupFirst l) :
    ∃ n ∈ l, m = pyStrip n := by
  induction l using dedupFirst.induct with
  | case1 => simp [dedupFirst] at hm
  | case2 n rest s hs ih =>
    rw [dedupFirst, if_pos hs] at hm
    obtain ⟨x, hx1, hx2⟩ := ih hm
    exact ⟨x, List.mem_cons_of_mem _ hx1, hx2⟩
  | case3 n rest s hs ih =>
    rw [dedupFirst, if_neg hs] at hm
    rcases List.mem_cons.mp hm with rfl | hm2
    · exact ⟨n, List.mem_cons_self _ _, rfl⟩
    · obtain ⟨x, hx1, hx2⟩ := ih hm2
      exact ⟨x, List.mem_cons_of_mem _ (List.mem_of_mem_filter hx1), hx2⟩

theorem pairwise_dedupFirst (l : List String) :
    List.Pairwise (fun a b => pyLower a ≠ pyLower b) (dedupFirst l) := by
  induction l using dedupFirst.induct with
  | case1 => simp [dedupFirst]
  | case2 n rest s hs ih =>
    rw [dedupFirst, if_pos hs]
    exact ih
  | case3 n rest s hs ih =>
    rw [dedupFirst, if_neg hs]
    refine List.Pairwise.cons ?_ ih
    intro m hm
    obtain ⟨x, hx1, hx2⟩ := mem_dedupFirst _ _ hm
    have hxk := List.of_mem_filter hx1
    rw [hx2]
    intro hc
    apply absurd hxk
    simp [accountKeyOf, hc.symm]

theorem unique_eq_dedup (rows : List FolderRow) :
    normalizeUnique [] rows = dedupFoldersSpec rows := by
  rw [normalizeUnique_eq_spec rows []]
  congr 1
  apply List.filter_eq_self.mpr
  intro a _
  simp

theorem any_inbox_unique (rows : List FolderRow) :
    (normalizeUnique [] rows).any (fun r => pyUpper r.name == "INBOX")
      = rows.any (fun r => pyUpper (pyStrip r.name) == "INBOX") := by
  rw [unique_eq_dedup]
  apply Bool.eq_iff_iff.mpr
  constructor
  · intro h
    obtain ⟨m, hm, hmP⟩ := List.any_eq_true.mp h
    obtain ⟨r, hr, rfl⟩ := mem_dedupFoldersSpec _ _ hm
    exact List.any_eq_true.mpr ⟨r, hr, by simpa using hmP⟩
  · intro h
    obtain ⟨r, hr, hrP⟩ := List.any_eq_true.mp h
    have hup : pyUpper (pyStrip r.name) = "INBOX" := by simpa using hrP
    have hkey : folderKeyOf r = "inbox" := (upper_eq_INBOX_iff _).mp hup
    obtain ⟨m, hm, hml⟩ :=
      exists_mem_dedupFoldersSpec rows "inbox" (by decide) r hr hkey
    refine List.any_eq_true.mpr ⟨m, hm, ?_⟩
    have hmU : pyUpper m.name = "INBOX" := (upper_eq_INBOX_iff _).mpr hml
    simpa using hmU

theorem countP_inbox_le_one (l : List FolderRow)
    (hp : List.Pairwise (fun a b => pyLower a.name ≠ pyLower b.name) l) :
    l.countP (fun r => pyUpper r.name == "INBOX") ≤ 1 := by
  induction l with
  | nil => simp
  | cons a t ih =>
    rw [List.countP_cons]
    cases hp with
    | cons ha hp2 =>
      by_cases hA : pyUpper a.name = "INBOX"
      · have ht0 : t.countP (fun r => pyUpper r.name == "INBOX") = 0 := by
          apply List.countP_eq_zero.mpr
          intro m hm hmP
          have hmU : pyUpper m.name = "INBOX" := by simpa using hmP
          have h1 := (upper_eq_INBOX_iff _).mp hA
          have h2 := (upper_eq_INBOX_iff _).mp hmU
          exact (ha m hm) (h1.trans h2.symm)
        simp [ht0, hA]
      · have hfa : (pyUpper a.name == "INBOX") = false := by
          simpa using hA
        rw [hfa]
        simpa using ih hp2

theorem sortedByB_ranks_names (l : List FolderRow)
    (hs : sortedByB rowLe l = true) (hr : ∀ y ∈ l, inboxRank y = 1) :
    namesSortedCI l = true := by
  induction l with
  | nil => rfl
  | cons a t ih =>
    cases t with
    | nil => rfl
    | cons b r =>
      have hparts : rowLe a b = true ∧ sortedByB rowLe (b :: r) = true := by
        simpa [sortedByB_cons_cons, Bool.and_eq_true] using hs
      have hab : charListLe (pyLower a.name).data (pyLower b.name).data
          = true := by
        rcases (rowLe_iff a b).mp hparts.1 with hlt | ⟨_, hc⟩
        · have h1 := hr a (List.mem_cons_self _ _)
          have h2 := hr b (List.mem_cons_of_mem _ (List.mem_cons_self _ _))
          omega
        · exact hc
      have ihr := ih hparts.2
        (fun y hy => hr y (List.mem_cons_of_mem _ hy))
      unfold namesSortedCI at ihr ⊢
      rw [sortedByB_cons_cons, hab, ihr]
      rfl

theorem normalize_folders_sort_branch (rows : List FolderRow)
    (hg : rows.any (fun r => pyUpper (pyStrip r.name) == "INBOX") = true) :
    normalize_folders rows = sortByB rowLe (normalizeUnique [] rows) := by
  unfold normalize_folders
  dsimp only
  rw [any_inbox_unique rows, hg]
  rfl

theorem normalize_folders_synth_branch (rows : List FolderRow)
    (hg : rows.any (fun r => pyUpper (pyStrip r.name) == "INBOX") = false) :
    normalize_folders rows = ⟨"INBOX", "Inbox"⟩ :: normalizeUnique [] rows := by
  unfold normalize_folders
  dsimp only
  rw [any_inbox_unique rows, hg]
  rfl

/-- C1 as amended: the normalized folder list contains exactly one entry whose
name equals INBOX case-insensitively, positioned first; when no such entry is
in the input it is synthesized with desc Inbox and the remaining entries keep
the order of their first occurrences, and only when an INBOX entry was in the
input are the remaining entries ordered case-insensitive alphabetically by
name (the source only sorts in that branch). -/
theorem claim_C1_folder_normalization (rows : List FolderRow) :
    (normalize_folders rows).countP (fun r => pyUpper r.name == "INBOX") = 1
    ∧ (∃ r t, normalize_folders rows = r :: t ∧ pyUpper r.name = "INBOX")
    ∧ (rows.any (fun r => pyUpper (pyStrip r.name) == "INBOX") = false →
        normalize_folders rows = ⟨"INBOX", "Inbox"⟩ :: dedupFoldersSpec rows)
    ∧ (rows.any (fun r => pyUpper (pyStrip r.name) == "INBOX") = true →
        namesSortedCI ((normalize_folders rows).drop 1) = true) := by
  have hpair : List.Pairwise (fun a b => pyLower a.name ≠ pyLower b.name)
      (normalizeUnique [] rows) := by
    rw [unique_eq_dedup]
    exact pairwise_dedupFoldersSpec rows
  by_cases hg : rows.any (fun r => pyUpper (pyStrip r.name) == "INBOX") = true
  · -- an INBOX entry is present: the sort branch
    have hout := normalize_folders_sort_branch rows hg
    have hperm := sortByB_perm rowLe (normalizeUnique [] rows)
    have hcount1 : (normalizeUnique [] rows).countP
        (fun r => pyUpper r.name == "INBOX") = 1 := by
      have hge : 0 < (normalizeUnique [] rows).countP
          (fun r => pyUpper r.name == "INBOX") := by
        apply List.countP_pos.mpr
        have := (any_inbox_unique rows).trans hg
        obtain ⟨m, hm, hmP⟩ := List.any_eq_true.mp this
        exact ⟨m, hm, hmP⟩
      have hle := countP_inbox_le_one _ hpair
      omega
    have hcount : (normalize_folders rows).countP
        (fun r => pyUpper r.name == "INBOX") = 1 := by
      rw [hout, hperm.countP_eq]
      exact hcount1
    refine ⟨hcount, ?_, fun h3 => absurd hg (by simp [h3]), ?_⟩
    · -- head is the INBOX entry
      have hmem : ∃ i ∈ normalizeUnique [] rows, pyUpper i.name = "INBOX" := by
        have := (any_inbox_unique rows).trans hg
        obtain ⟨m, hm, hmP⟩ := List.any_eq_true.mp this
        exact ⟨m, hm, by simpa using hmP⟩
      obtain ⟨i, hi, hiU⟩ := hmem
      have hsorted := sortedByB_sortByB rowLe rowLe_total (normalizeUnique [] rows)
      cases hsort : sortByB rowLe (normalizeUnique [] rows) with
      | nil =>
        rw [hsort] at hperm
        exact absurd (hperm.mem_iff.mpr hi) (List.not_mem_nil i)
      | cons h t =>
        have hiIn : i ∈ h :: t := by
          rw [← hsort]
          exact hperm.mem_iff.mpr hi
        have hranki : inboxRank i = 0 := by
          unfold inboxRank
          rw [if_pos hiU]
        have hhU : pyUpper h.name = "INBOX" := by
          rcases List.mem_cons.mp hiIn with rfl | hit
          · exact hiU
          · have hle := sortedByB_head_le rowLe rowLe_trans h t
              (hsort ▸ hsorted) i hit
            have hrankh : inboxRank h = 0 := by
              rcases (rowLe_iff h i).mp hle with hlt | ⟨heq, _⟩
              · omega
              · omega
            by_contra hc
            have : inboxRank h = 1 := by
              unfold inboxRank
              rw [if_neg hc]
            omega
        exact ⟨h, t, hout.trans hsort, hhU⟩
    · -- the entries after INBOX are sorted alphabetically
      intro _
      have hsorted := sortedByB_sortByB rowLe rowLe_total (normalizeUnique [] rows)
      cases hsort : sortByB rowLe (normalizeUnique [] rows) with
      | nil =>
        rw [hout, hsort]
        rfl
      | cons h t =>
        rw [hout, hsort]
        have hsorted2 : sortedByB rowLe (h :: t) = true := hsort ▸ hsorted
        have hcount2 : (h :: t).countP (fun r => pyUpper r.name == "INBOX")
            = 1 := by
          rw [← hsort, hperm.countP_eq]
          exact hcount1
        have hhU : pyUpper h.name = "INBOX" := by
          by_contra hc
          -- then the single INBOX entry lies in t and the head is above it
          rw [List.countP_cons] at hcount2
          have hfa : (pyUpper h.name == "INBOX") = false := by simpa using hc
          rw [hfa] at hcount2
          rw [if_neg (by simp), Nat.add_zero] at hcount2
          have hpos : 0 < t.countP (fun r => pyUpper r.name == "INBOX") := by
            omega
          obtain ⟨m, hm, hmP⟩ := List.countP_pos.mp hpos
          have hmU : pyUpper m.name = "INBOX" := by simpa using hmP
          have hle := sortedByB_head_le rowLe rowLe_trans h t hsorted2 m hm
          have hrankm : inboxRank m = 0 := by
            unfold inboxRank
            rw [if_pos hmU]
          have hrankh : inboxRank h = 1 := by
            unfold inboxRank
            rw [if_neg hc]
          rcases (rowLe_iff h m).mp hle with hlt | ⟨heq, _⟩ <;> omega
        have ht0 : ∀ y ∈ t, inboxRank y = 1 := by
          intro y hy
          rw [List.countP_cons] at hcount2
          have hfa : (pyUpper h.name == "INBOX") = true := by simpa using hhU
          rw [hfa, if_pos rfl] at hcount2
          have ht00 : t.countP (fun r => pyUpper r.name == "INBOX") = 0 := by
            omega
          have := List.countP_eq_zero.mp ht00 y hy
          unfold inboxRank
          rw [if_neg (by simpa using this)]
        have hts : sortedByB rowLe t = true := by
          cases t with
          | nil => rfl
          | cons b r =>
            have : rowLe h b = true ∧ sortedByB rowLe (b :: r) = true := by
              simpa [sortedByB_cons_cons, Bool.and_eq_true] using hsorted2
            exact this.2
        simpa using sortedByB_ranks_names t hts ht0
  · -- no INBOX entry in the input: the synthesized branch
    have hg2 : rows.any (fun r => pyUpper (pyStrip r.name) == "INBOX")
        = false := by
      cases h : rows.any (fun r => pyUpper (pyStrip r.name) == "INBOX")
      · rfl
      · exact absurd h hg
    have hout := normalize_folders_synth_branch rows hg2
    have hu0 : (normalizeUnique [] rows).countP
        (fun r => pyUpper r.name == "INBOX") = 0 := by
      apply List.countP_eq_zero.mpr
      intro m hm hmP
      have : (normalizeUnique [] rows).any
          (fun r => pyUpper r.name == "INBOX") = true :=
        List.any_eq_true.mpr ⟨m, hm, hmP⟩
      rw [any_inbox_unique rows, hg2] at this
      cases this
    refine ⟨?_, ?_, ?_, fun h4 => absurd h4 hg⟩
    · rw [hout, List.countP_cons, hu0]
      decide
    · exact ⟨⟨"INBOX", "Inbox"⟩, normalizeUnique [] rows, hout, by decide⟩
    · intro _
      rw [hout, unique_eq_dedup]

/-- C9 as amended: both folder normalization and account enumeration
de-duplicate by case-insensitive name, keeping the trimmed first occurrence of
each name, with each name appearing at most once in the output; the account
list preserves the relative order of first occurrences, while the normalized
folder list is only a permutation of the de-duplicated entries (plus the
synthesized INBOX when absent), because normalization then moves INBOX first
and sorts the rest when an INBOX entry was present. -/
theorem claim_C9_dedup_behavior (files : List (List (String × AccountCfg)))
    (rows : List FolderRow) :
    (list_accounts_from_config files).1
        = dedupFirst (files.flatten.map Prod.fst)
    ∧ List.Pairwise (fun a b => pyLower a ≠ pyLower b)
        (list_accounts_from_config files).1
    ∧ (normalize_folders rows).Perm
        (if rows.any (fun r => pyUpper (pyStrip r.name) == "INBOX") = true then
          dedupFoldersSpec rows
        else ⟨"INBOX", "Inbox"⟩ :: dedupFoldersSpec rows)
    ∧ List.Pairwise (fun a b => pyLower a.name ≠ pyLower b.name)
        (normalize_folders rows) := by
  have hperm3 : (normalize_folders rows).Perm
      (if rows.any (fun r => pyUpper (pyStrip r.name) == "INBOX") = true then
        dedupFoldersSpec rows
      else ⟨"INBOX", "Inbox"⟩ :: dedupFoldersSpec rows) := by
    by_cases hg : rows.any (fun r => pyUpper (pyStrip r.name) == "INBOX") = true
    · rw [if_pos hg, normalize_folders_sort_branch rows hg, unique_eq_dedup]
      exact sortByB_perm rowLe (dedupFoldersSpec rows)
    · have hg2 : rows.any (fun r => pyUpper (pyStrip r.name) == "INBOX")
          = false := by
        cases h : rows.any (fun r => pyUpper (pyStrip r.name) == "INBOX")
        · rfl
        · exact absurd h hg
      rw [if_neg hg, normalize_folders_synth_branch rows hg2, unique_eq_dedup]
  refine ⟨list_accounts_eq_dedupFirst files, ?_, hperm3, ?_⟩
  · rw [list_accounts_eq_dedupFirst files]
    exact pairwise_dedupFirst _
  · by_cases hg : rows.any (fun r => pyUpper (pyStrip r.name) == "INBOX") = true
    · rw [if_pos hg] at hperm3
      exact (hperm3.pairwise_iff (fun h => h.symm)).mpr
        (pairwise_dedupFoldersSpec rows)
    · have hg2 : rows.any (fun r => pyUpper (pyStrip r.name) == "INBOX")
          = false := by
        cases h : rows.any (fun r => pyUpper (pyStrip r.name) == "INBOX")
        · rfl
        · exact absurd h hg
      rw [if_neg hg] at hperm3
      refine (hperm3.pairwise_iff (fun h => h.symm)).mpr ?_
      refine List.Pairwise.cons ?_ (pairwise_dedupFoldersSpec rows)
      intro m hm hc
      have hml : pyLower m.name = "inbox" := by
        rw [← hc]
        decide
      have hmU : pyUpper m.name = "INBOX" := (upper_eq_INBOX_iff _).mpr hml
      have hany : (normalizeUnique [] rows).any
          (fun r => pyUpper r.name == "INBOX") = true := by
        rw [unique_eq_dedup]
        exact List.any_eq_true.mpr ⟨m, hm, by simpa using hmU⟩
      rw [any_inbox_unique rows, hg2] at hany
      cases hany

/-- Witness for C1 as amended, at one input without and one with an INBOX
entry. -/
theorem claim_C1_witness :
    normalize_folders [⟨"b", ""⟩, ⟨"a", ""⟩]
        = ⟨"INBOX", "Inbox"⟩ :: dedupFoldersSpec [⟨"b", ""⟩, ⟨"a", ""⟩]
    ∧ namesSortedCI
        ((normalize_folders [⟨"INBOX", ""⟩, ⟨"b", ""⟩, ⟨"a", ""⟩]).drop 1)
        = true := by
  exact
    ⟨(claim_C1_folder_normalization [⟨"b", ""⟩, ⟨"a", ""⟩]).2.2.1 (by decide),
      (claim_C1_folder_normalization
        [⟨"INBOX", ""⟩, ⟨"b", ""⟩, ⟨"a", ""⟩]).2.2.2 (by decide)⟩

/-- Counterexample to C1 as stated: when the INBOX entry is synthesized, the
remaining entries keep their input order and are not sorted alphabetically. -/
theorem claim_C1_counterexample :
    normalize_folders [⟨"b", ""⟩, ⟨"a", ""⟩]
        = [⟨"INBOX", "Inbox"⟩, ⟨"b", ""⟩, ⟨"a", ""⟩]
    ∧ namesSortedCI ((normalize_folders [⟨"b", ""⟩, ⟨"a", ""⟩]).drop 1)
        = false := by
  exact ⟨by decide, by decide⟩

/-- Counterexample to C9 as stated: with an INBOX entry present the
normalized folder output is sorted, so the kept entries do not preserve the
relative order of their first occurrences in the input. -/
theorem claim_C9_counterexample :
    normalize_folders [⟨"INBOX", ""⟩, ⟨"b", ""⟩, ⟨"a", ""⟩]
        = [⟨"INBOX", ""⟩, ⟨"a", ""⟩, ⟨"b", ""⟩]
    ∧ normalize_folders [⟨"INBOX", ""⟩, ⟨"b", ""⟩, ⟨"a", ""⟩]
        ≠ [⟨"INBOX", ""⟩, ⟨"b", ""⟩, ⟨"a", ""⟩] := by
  exact ⟨by decide, by decide⟩
